import Mathlib

/-!
Verification development for the stripe-copy-prod-to-test utility.

The Python source is shallowly embedded:

* A source/destination record (`Ent`) is a record of attributes.  Each
  attribute is an `Attr`: it can be missing from the object (`absent`,
  Python `hasattr` is false and direct access raises `AttributeError`),
  present but `None` (`nul`), or present with a value (`val`).
* Fallible code (direct attribute access, `raise`) is modelled with
  `Except Unit`.
* Python dicts with string keys/values are association lists; assignment
  `d[k] = v` is `dset` (overwrite in place, append if new).
* The Stripe client (`src/stripe_client.py`) is `clientCreate` /
  `clientUpdate`; the remote store assigns ids `sim_0`, `sim_1`, ... to
  created records, and a record created or updated through the API echoes
  the request parameters; parameters that were not sent are `null` on the
  returned object.
* The per-kind copy loop (`BaseCopier.copy` / `copy_one`) is
  `copyOneStep` / `runK` / `copyK`, with the per-record try/except of
  `copy` modelled as the `errored` branch.
-/

namespace StripeCopy

/-- A Python attribute slot: missing, present-but-None, or a value. -/
inductive Attr (α : Type) where
  | absent : Attr α
  | nul : Attr α
  | val : α → Attr α
deriving DecidableEq

namespace Attr

/-- Python `hasattr`. -/
def hasA : Attr α → Bool
  | .absent => false
  | _ => true

/-- Direct attribute access `e.f`: raises `AttributeError` when missing,
otherwise yields the Python value (`none` = Python `None`). -/
def acc : Attr α → Except Unit (Option α)
  | .absent => .error ()
  | .nul => .ok none
  | .val a => .ok (some a)

/-- Python `getattr(e, f, d)`. -/
def getD (x : Attr α) (d : Option α) : Option α :=
  match x with
  | .absent => d
  | .nul => none
  | .val a => some a

/-- Truthiness of an attribute, given the truthiness of the value type. -/
def truthy (f : α → Bool) : Attr α → Bool
  | .val a => f a
  | _ => false

/-- `e.f is not None` under a `hasattr` guard. -/
def isVal : Attr α → Bool
  | .val _ => true
  | _ => false

/-- Embed a Python value into an attribute slot. -/
def ofPy : Option α → Attr α
  | none => .nul
  | some a => .val a

end Attr

/-- Python pattern `params[k] = e.f if hasattr(e, "f")` (value may be None). -/
def attrIfHas : Attr α → Option (Option α)
  | .absent => none
  | .nul => some none
  | .val a => some (some a)

/-- Python pattern `params[k] = e.f if hasattr(e, "f") and e.f` (truthy). -/
def attrIfTruthy (f : α → Bool) : Attr α → Option α
  | .val a => if f a then some a else none
  | _ => none

/-- Truthiness of a Python string. -/
def strT (s : String) : Bool := s ≠ ""

/-- Truthiness of a Python int. -/
def intT (n : Int) : Bool := n ≠ 0

/-- Truthiness of a Python number (rational model of floats). -/
def ratT (q : Rat) : Bool := q ≠ 0

/-- Truthiness of a Python list. -/
def listT (l : List α) : Bool := !l.isEmpty

/-- String-keyed Python dict as an association list. -/
abbrev PyDict := List (String × String)

/-- `d.get(k)`. -/
def dget (d : PyDict) (k : String) : Option String :=
  (d.find? (fun p => p.1 == k)).map (·.2)

/-- `d[k] = v`: overwrite in place if the key exists, else append. -/
def dset (d : PyDict) (k : String) (v : String) : PyDict :=
  if (d.find? (fun p => p.1 == k)).isSome then
    d.map (fun p => if p.1 == k then (k, v) else p)
  else
    d ++ [(k, v)]

/-- Truthiness of a Python dict (possibly None). -/
def dictT : Option PyDict → Bool
  | some l => !l.isEmpty
  | none => false

/-- The mapper's per-kind prod-id → test-id table (`IDMapper.mappings[kind]`). -/
abbrev PM := PyDict

/-- A price's `product` field: either a bare id string or an object with `.id`
(`prices.py` normalises both with `if hasattr(x, "id"): x = x.id`). -/
inductive ProdRef where
  | idStr : String → ProdRef
  | obj : String → ProdRef
deriving DecidableEq

/-- The id string a `ProdRef` normalises to. -/
def ProdRef.norm : ProdRef → String
  | .idStr s => s
  | .obj s => s

/-- A product's `tax_code`: bare code string or object with `.id`. -/
inductive TaxCode where
  | str : String → TaxCode
  | obj : String → TaxCode
deriving DecidableEq

/-- A price's `recurring` sub-object. -/
structure Recurring where
  interval : Attr String := .absent
  interval_count : Attr Int := .absent
  usage_type : Attr String := .absent
  trial_period_days : Attr Int := .absent
deriving DecidableEq

/-- A coupon's `applies_to` sub-object. -/
structure AppliesTo where
  products : Attr (List String) := .absent
deriving DecidableEq

/-- One entry of a tiered price's `tiers` list. -/
structure Tier where
  up_to : Attr Int := .absent
  unit_amount : Attr Int := .absent
  flat_amount : Attr Int := .absent
deriving DecidableEq

/-- A price's `transform_quantity` sub-object. -/
structure TransformQuantity where
  divide_by : Attr Int := .absent
  round : Attr String := .absent
deriving DecidableEq

/-- A Stripe record, with every attribute any of the four copiers reads.
Attributes a concrete object does not carry are `absent`. -/
structure Ent where
  id : String := ""
  metadata : Attr PyDict := .absent
  name : Attr String := .absent
  description : Attr String := .absent
  active : Attr Bool := .absent
  images : Attr (List String) := .absent
  statement_descriptor : Attr String := .absent
  unit_label : Attr String := .absent
  url : Attr String := .absent
  shippable : Attr Bool := .absent
  features : Attr (List String) := .absent
  tax_code : Attr TaxCode := .absent
  currency : Attr String := .absent
  product : Attr ProdRef := .absent
  unit_amount : Attr Int := .absent
  unit_amount_decimal : Attr String := .absent
  recurring : Attr Recurring := .absent
  billing_scheme : Attr String := .absent
  tiers : Attr (List Tier) := .absent
  tiers_mode : Attr String := .absent
  transform_quantity : Attr TransformQuantity := .absent
  nickname : Attr String := .absent
  lookup_key : Attr String := .absent
  tax_behavior : Attr String := .absent
  percent_off : Attr Rat := .absent
  amount_off : Attr Int := .absent
  duration : Attr String := .absent
  duration_in_months : Attr Int := .absent
  max_redemptions : Attr Int := .absent
  redeem_by : Attr Int := .absent
  applies_to : Attr AppliesTo := .absent
  display_name : Attr String := .absent
  inclusive : Attr Bool := .absent
  percentage : Attr Rat := .absent
  jurisdiction : Attr String := .absent
  country : Attr String := .absent
  state : Attr String := .absent
deriving DecidableEq

/-! ## Request parameters per resource kind

A params field of type `Option (Option α)` distinguishes "key not sent"
(`none`) from "key sent with Python `None`" (`some none`); fields that the
source only ever sets under a truthiness guard use plain `Option α`. -/

/-- `ProductCopier.get_create_params` / `get_update_params` output. -/
structure ProductParams where
  name : Option (Option String) := none
  description : Option (Option String) := none
  active : Option (Option Bool) := none
  images : Option (List String) := none
  statement_descriptor : Option (Option String) := none
  unit_label : Option (Option String) := none
  url : Option (Option String) := none
  shippable : Option (Option Bool) := none
  features : Option (List String) := none
  tax_code : Option String := none
  metadata : Option PyDict := none
deriving DecidableEq

/-- `TaxRateCopier` params. -/
structure TaxRateParams where
  display_name : Option (Option String) := none
  inclusive : Option (Option Bool) := none
  percentage : Option (Option Rat) := none
  description : Option (Option String) := none
  jurisdiction : Option String := none
  country : Option String := none
  state : Option String := none
  metadata : Option PyDict := none
deriving DecidableEq

/-- The `recurring` block of price create params.  The `interval` key is
always present (its value is the Python value of `recurring.interval`). -/
structure RecurringParams where
  interval : Option String := none
  interval_count : Option (Option Int) := none
  usage_type : Option (Option String) := none
  trial_period_days : Option (Option Int) := none
deriving DecidableEq

/-- One tier descriptor; `up_to = none` models the `"inf"` sentinel. -/
structure TierParam where
  up_to : Option Int := none
  unit_amount : Option Int := none
  flat_amount : Option Int := none
deriving DecidableEq

/-- `PriceCopier` params. -/
structure PriceParams where
  currency : Option (Option String) := none
  product : Option String := none
  unit_amount_decimal : Option String := none
  unit_amount : Option Int := none
  recurring : Option RecurringParams := none
  billing_scheme : Option (Option String) := none
  tiers : Option (List TierParam) := none
  tiers_mode : Option (Option String) := none
  transform_quantity : Option (Option Int × Option String) := none
  active : Option (Option Bool) := none
  nickname : Option (Option String) := none
  lookup_key : Option String := none
  tax_behavior : Option (Option String) := none
  metadata : Option PyDict := none
deriving DecidableEq

/-- `CouponCopier` params. -/
structure CouponParams where
  id : Option String := none
  percent_off : Option Rat := none
  amount_off : Option Int := none
  currency : Option (Option String) := none
  duration : Option (Option String) := none
  duration_in_months : Option Int := none
  name : Option (Option String) := none
  max_redemptions : Option Int := none
  redeem_by : Option Int := none
  applies_to : Option (List String) := none
  metadata : Option PyDict := none
deriving DecidableEq

/-- `ProductCopier.get_create_params` (`products.py` lines 17-71). -/
def productCreateParams (s : Ent) : Except Unit ProductParams :=
  match s.name.acc with
  | .error _ => .error ()
  | .ok n =>
    .ok {
      name := some n
      description := (attrIfTruthy strT s.description).map some
      active := attrIfHas s.active
      images := attrIfTruthy listT s.images
      statement_descriptor := (attrIfTruthy strT s.statement_descriptor).map some
      unit_label := (attrIfTruthy strT s.unit_label).map some
      url := (attrIfTruthy strT s.url).map some
      shippable := attrIfHas s.shippable
      features := attrIfTruthy listT s.features
      tax_code :=
        match s.tax_code with
        | .val (.str t) => if strT t then some t else none
        | .val (.obj o) => some o
        | _ => none
      metadata := attrIfTruthy (fun l => !l.isEmpty) s.metadata }

/-- `ProductCopier.get_update_params` (`products.py` lines 73-120). -/
def productUpdateParams (s : Ent) : ProductParams :=
  { name := attrIfHas s.name
    description := attrIfHas s.description
    active := attrIfHas s.active
    images := attrIfTruthy listT s.images
    statement_descriptor := attrIfHas s.statement_descriptor
    unit_label := attrIfHas s.unit_label
    url := attrIfHas s.url
    shippable := attrIfHas s.shippable
    features := attrIfTruthy listT s.features
    metadata :=
      (attrIfTruthy (fun l => !l.isEmpty) s.metadata).map
        (fun l => dset l "prod_id" s.id) }

/-- `TaxRateCopier.get_create_params` (`tax_rates.py` lines 17-50). -/
def taxRateCreateParams (s : Ent) : Except Unit TaxRateParams :=
  match s.display_name.acc with
  | .error _ => .error ()
  | .ok dn =>
    match s.inclusive.acc with
    | .error _ => .error ()
    | .ok inc =>
      match s.percentage.acc with
      | .error _ => .error ()
      | .ok pct =>
        .ok {
          display_name := some dn
          inclusive := some inc
          percentage := some pct
          description := (attrIfTruthy strT s.description).map some
          jurisdiction := attrIfTruthy strT s.jurisdiction
          country := attrIfTruthy strT s.country
          state := attrIfTruthy strT s.state
          metadata := attrIfTruthy (fun l => !l.isEmpty) s.metadata }

/-- `TaxRateCopier.get_update_params` (`tax_rates.py` lines 52-78). -/
def taxRateUpdateParams (s : Ent) : TaxRateParams :=
  { description := attrIfHas s.description
    display_name := attrIfHas s.display_name
    metadata :=
      (attrIfTruthy (fun l => !l.isEmpty) s.metadata).map
        (fun l => dset l "prod_id" s.id) }

/-- One tier descriptor (`prices.py` lines 87-100). -/
def tierParamOf (t : Tier) : TierParam :=
  { up_to := attrIfTruthy intT t.up_to
    unit_amount := attrIfTruthy (fun _ => true) t.unit_amount
    flat_amount := attrIfTruthy (fun _ => true) t.flat_amount }

/-- `PriceCopier.get_create_params` (`prices.py` lines 31-129).  Reads the
mapper's `products` table `pm`; raises (the `ValueError`) when the source's
product reference has no truthy mapping. -/
def priceCreateParams (pm : PM) (s : Ent) : Except Unit PriceParams :=
  match s.currency.acc with
  | .error _ => .error ()
  | .ok cur =>
    match s.product.acc with
    | .error _ => .error ()
    | .ok ref =>
      let tid? : Option String :=
        match ref with
        | some r => dget pm r.norm
        | none => none
      match tid? with
      | none => .error ()
      | some tid =>
        if tid = "" then .error () else
        match (match s.recurring with
               | .val r =>
                 match r.interval.acc with
                 | .error _ => Except.error ()
                 | .ok iv =>
                   Except.ok (some ({ interval := iv
                                      interval_count := attrIfHas r.interval_count
                                      usage_type := attrIfHas r.usage_type
                                      trial_period_days := attrIfHas r.trial_period_days } :
                                      RecurringParams))
               | _ => Except.ok (none : Option RecurringParams)) with
        | .error _ => .error ()
        | .ok recur =>
          match (match s.transform_quantity with
                 | .val tq =>
                   match tq.divide_by.acc with
                   | .error _ => Except.error ()
                   | .ok dv =>
                     match tq.round.acc with
                     | .error _ => Except.error ()
                     | .ok rd => Except.ok (some (dv, rd))
                 | _ => Except.ok (none : Option (Option Int × Option String))) with
          | .error _ => .error ()
          | .ok tq =>
            .ok {
              currency := some cur
              product := some tid
              unit_amount_decimal := attrIfTruthy strT s.unit_amount_decimal
              unit_amount :=
                match s.unit_amount_decimal with
                | .val d => if strT d then none else attrIfTruthy (fun _ => true) s.unit_amount
                | _ => attrIfTruthy (fun _ => true) s.unit_amount
              recurring := recur
              billing_scheme := attrIfHas s.billing_scheme
              tiers := (attrIfTruthy listT s.tiers).map (List.map tierParamOf)
              tiers_mode :=
                match attrIfTruthy listT s.tiers with
                | some _ => attrIfHas s.tiers_mode
                | none => none
              transform_quantity := tq
              active := attrIfHas s.active
              nickname := (attrIfTruthy strT s.nickname).map some
              lookup_key := attrIfTruthy strT s.lookup_key
              tax_behavior := attrIfHas s.tax_behavior
              metadata := attrIfTruthy (fun l => !l.isEmpty) s.metadata }

/-- `PriceCopier.get_update_params` (`prices.py` lines 131-155). -/
def priceUpdateParams (s : Ent) : PriceParams :=
  { active := attrIfHas s.active
    nickname := attrIfHas s.nickname
    metadata :=
      (attrIfTruthy (fun l => !l.isEmpty) s.metadata).map
        (fun l => dset l "prod_id" s.id) }

/-- Resolution of one `applies_to` product reference
(`coupons.py` lines 74-82): kept when the mapping lookup is truthy. -/
def resolveOne (pm : PM) (pid : String) : Option String :=
  match dget pm pid with
  | some t => if t = "" then none else some t
  | none => none

/-- `CouponCopier.get_create_params` (`coupons.py` lines 26-91); total. -/
def couponCreateParams (pm : PM) (s : Ent) : CouponParams :=
  { id := if strT s.id then some ("test_" ++ s.id) else none
    percent_off :=
      match s.percent_off with
      | .val v => some v
      | _ => none
    amount_off :=
      match s.percent_off with
      | .val _ => none
      | _ => attrIfTruthy (fun _ => true) s.amount_off
    currency :=
      match s.percent_off with
      | .val _ => none
      | _ =>
        match s.amount_off with
        | .val _ => attrIfHas s.currency
        | _ => none
    duration := attrIfHas s.duration
    duration_in_months := attrIfTruthy intT s.duration_in_months
    name := (attrIfTruthy strT s.name).map some
    max_redemptions := attrIfTruthy intT s.max_redemptions
    redeem_by := attrIfTruthy intT s.redeem_by
    applies_to :=
      match s.applies_to with
      | .val ap =>
        match ap.products with
        | .val ps =>
          if ps.isEmpty then none
          else
            let resolved := ps.filterMap (resolveOne pm)
            if resolved.isEmpty then none else some resolved
        | _ => none
      | _ => none
    metadata := attrIfTruthy (fun l => !l.isEmpty) s.metadata }

/-- `CouponCopier.get_update_params` (`coupons.py` lines 93-114). -/
def couponUpdateParams (s : Ent) : CouponParams :=
  { name := attrIfHas s.name
    metadata :=
      (attrIfTruthy (fun l => !l.isEmpty) s.metadata).map
        (fun l => dset l "prod_id" s.id) }

/-! ## Matching strategies and `find_existing` per kind -/

/-- `getattr(test_entity, "metadata", {})`, shared by every strategy 1. -/
def mdDefault (e : Ent) : Option PyDict := e.metadata.getD (some [])

/-- Strategy 1, identical in all four copiers: destination metadata
`prod_id` equals the source id. -/
def strat1 (s e : Ent) : Bool :=
  match mdDefault e with
  | some l => !l.isEmpty && (dget l "prod_id" == some s.id)
  | none => false

/-- The "don't hijack a record tagged with a different prod_id" guard of
`products.py` lines 151-156 and `coupons.py` lines 153-158. -/
def prodNameGuard (s e : Ent) : Bool :=
  let ex : Option String :=
    match mdDefault e with
    | some l => if l.isEmpty then none else dget l "prod_id"
    | none => none
  match ex with
  | none => true
  | some p => p == "" || p == s.id

/-- Product strategy 2: exact name equality (both sides accessed directly)
plus the prod_id guard. -/
def prodStrat2 (s e : Ent) : Except Unit Bool :=
  match e.name.acc with
  | .error _ => .error ()
  | .ok tn =>
    match s.name.acc with
    | .error _ => .error ()
    | .ok pn => .ok (tn == pn && prodNameGuard s e)

/-- First list element on which a fallible predicate returns true. -/
def firstMatchE (p : Ent → Except Unit Bool) : List Ent → Except Unit (Option Ent)
  | [] => .ok none
  | e :: es =>
    match p e with
    | .error u => .error u
    | .ok true => .ok (some e)
    | .ok false => firstMatchE p es

/-- `ProductCopier.find_existing` (`products.py` lines 122-158). -/
def findProducts (s : Ent) (D : List Ent) : Except Unit (Option Ent) :=
  match D.find? (strat1 s) with
  | some m => .ok (some m)
  | none => firstMatchE (prodStrat2 s) D

/-- Tax-rate strategy 2 (`tax_rates.py` lines 105-116): display_name,
percentage within 0.01, jurisdiction.  A `None` percentage on either side
makes the subtraction raise `TypeError`. -/
def taxStrat2 (s e : Ent) : Except Unit Bool :=
  match e.display_name.acc with
  | .error _ => .error ()
  | .ok tdn =>
    match s.display_name.acc with
    | .error _ => .error ()
    | .ok pdn =>
      match e.percentage.acc with
      | .error _ => .error ()
      | .ok tp =>
        match s.percentage.acc with
        | .error _ => .error ()
        | .ok pp =>
          match tp, pp with
          | some a, some b =>
            .ok (tdn == pdn && decide (|a - b| < (1 : Rat)/100) &&
                 (s.jurisdiction.getD none == e.jurisdiction.getD none))
          | _, _ => .error ()

/-- `TaxRateCopier.find_existing` (`tax_rates.py` lines 80-118). -/
def findTaxRates (s : Ent) (D : List Ent) : Except Unit (Option Ent) :=
  match D.find? (strat1 s) with
  | some m => .ok (some m)
  | none => firstMatchE (taxStrat2 s) D

/-- Coupon strategy 3 (name equality with the prod_id guard), reached only
when the source name is truthy (`sn`). -/
def couponStrat3 (sn : String) (s e : Ent) : Bool :=
  e.name.hasA && (e.name.getD none == some sn) && prodNameGuard s e

/-- `CouponCopier.find_existing` (`coupons.py` lines 116-160); total. -/
def findCoupons (s : Ent) (D : List Ent) : Option Ent :=
  match D.find? (strat1 s) with
  | some m => some m
  | none =>
    match D.find? (fun e => e.id == "test_" ++ s.id) with
    | some m => some m
    | none =>
      match s.name with
      | .val sn => if strT sn then D.find? (couponStrat3 sn s) else none
      | _ => none

/-- Price strategy 2 (lookup_key equality), reached only when the source
lookup_key is truthy (`sl`). -/
def priceStrat2 (sl : String) (e : Ent) : Bool :=
  e.lookup_key.hasA && (e.lookup_key.getD none == some sl)

/-- The recurring sub-check of price strategy 3
(`prices.py` lines 217-229). -/
def priceRecurringCheck (s e : Ent) : Except Unit Bool :=
  let pr := s.recurring.getD none
  let tr := e.recurring.getD none
  if pr.isSome ≠ tr.isSome then .ok false
  else
    match pr, tr with
    | some r, some t =>
      match r.interval.acc with
      | .error _ => .error ()
      | .ok pint =>
        match t.interval.acc with
        | .error _ => .error ()
        | .ok tint =>
          if pint ≠ tint then .ok false
          else
            match r.interval_count with
            | .absent => .ok true
            | .nul =>
              match t.interval_count.acc with
              | .error _ => .error ()
              | .ok tic => .ok ((none : Option Int) == tic)
            | .val pic =>
              match t.interval_count.acc with
              | .error _ => .error ()
              | .ok tic => .ok (some pic == tic)
    | _, _ => .ok true

/-- One candidate of price strategy 3 (`prices.py` lines 200-232):
same resolved product, currency, unit_amount (when the source has one)
and recurrence. -/
def priceStrat3Pred (s : Ent) (tid : String) (e : Ent) : Except Unit Bool :=
  match e.product.acc with
  | .error _ => .error ()
  | .ok tp =>
    if (tp.map ProdRef.norm) ≠ some tid then .ok false
    else
      match e.currency.acc with
      | .error _ => .error ()
      | .ok tc =>
        match s.currency.acc with
        | .error _ => .error ()
        | .ok pc =>
          if tc ≠ pc then .ok false
          else
            match s.unit_amount with
            | .val ua =>
              match e.unit_amount.acc with
              | .error _ => .error ()
              | .ok tua =>
                if tua ≠ some ua then .ok false else priceRecurringCheck s e
            | _ => priceRecurringCheck s e

/-- Price strategy 3 with its product resolution prologue
(`prices.py` lines 190-198): an unresolvable or falsy mapping returns
no match. -/
def priceStage3 (pm : PM) (s : Ent) (D : List Ent) : Except Unit (Option Ent) :=
  match s.product.acc with
  | .error _ => .error ()
  | .ok ref =>
    match (match ref with
           | some r => dget pm r.norm
           | none => none) with
    | none => .ok none
    | some t => if t = "" then .ok none else firstMatchE (priceStrat3Pred s t) D

/-- `PriceCopier.find_existing` (`prices.py` lines 157-234). -/
def findPrices (pm : PM) (s : Ent) (D : List Ent) : Except Unit (Option Ent) :=
  match D.find? (strat1 s) with
  | some m => .ok (some m)
  | none =>
    match (match s.lookup_key with
           | .val sl => if strT sl then D.find? (priceStrat2 sl) else none
           | _ => none) with
    | some m => .ok (some m)
    | none => priceStage3 pm s D

/-! ## Effect of API create/modify calls on the destination store -/

/-- Attribute of a record built by the remote store from a sent key:
a key that was not sent comes back `null`. -/
def ofParam2 : Option (Option α) → Attr α
  | none => .nul
  | some v => Attr.ofPy v

/-- Same, for keys that can only carry non-null values. -/
def ofParamV : Option α → Attr α
  | none => .nul
  | some v => .val v

/-- Attribute after an API modify: an unsent key is unchanged. -/
def updAttr (old : Attr α) : Option (Option α) → Attr α
  | none => old
  | some v => Attr.ofPy v

/-- Same, for keys that can only carry non-null values. -/
def updAttrV (old : Attr α) : Option α → Attr α
  | none => old
  | some v => .val v

/-- The destination product created from `p` with server-assigned id. -/
def applyCreateProduct (nid : String) (p : ProductParams) : Ent :=
  { id := nid
    metadata := .val (p.metadata.getD [])
    name := ofParam2 p.name
    description := ofParam2 p.description
    active := ofParam2 p.active
    images := ofParamV p.images
    statement_descriptor := ofParam2 p.statement_descriptor
    unit_label := ofParam2 p.unit_label
    url := ofParam2 p.url
    shippable := ofParam2 p.shippable
    features := ofParamV p.features
    tax_code := match p.tax_code with
                | some t => .val (.str t)
                | none => .nul }

/-- The destination product after an API modify with `p`. -/
def applyUpdateProduct (p : ProductParams) (e : Ent) : Ent :=
  { e with
    name := updAttr e.name p.name
    description := updAttr e.description p.description
    active := updAttr e.active p.active
    images := updAttrV e.images p.images
    statement_descriptor := updAttr e.statement_descriptor p.statement_descriptor
    unit_label := updAttr e.unit_label p.unit_label
    url := updAttr e.url p.url
    shippable := updAttr e.shippable p.shippable
    features := updAttrV e.features p.features
    metadata := match p.metadata with
                | some l => .val l
                | none => e.metadata }

/-- The destination tax rate created from `p`. -/
def applyCreateTaxRate (nid : String) (p : TaxRateParams) : Ent :=
  { id := nid
    metadata := .val (p.metadata.getD [])
    display_name := ofParam2 p.display_name
    inclusive := ofParam2 p.inclusive
    percentage := ofParam2 p.percentage
    description := ofParam2 p.description
    jurisdiction := ofParamV p.jurisdiction
    country := ofParamV p.country
    state := ofParamV p.state }

/-- The destination tax rate after an API modify with `p`. -/
def applyUpdateTaxRate (p : TaxRateParams) (e : Ent) : Ent :=
  { e with
    description := updAttr e.description p.description
    display_name := updAttr e.display_name p.display_name
    metadata := match p.metadata with
                | some l => .val l
                | none => e.metadata }

/-- The destination price created from `p`. -/
def applyCreatePrice (nid : String) (p : PriceParams) : Ent :=
  { id := nid
    metadata := .val (p.metadata.getD [])
    currency := ofParam2 p.currency
    product := match p.product with
               | some t => .val (.idStr t)
               | none => .nul
    unit_amount := ofParamV p.unit_amount
    unit_amount_decimal := ofParamV p.unit_amount_decimal
    recurring := match p.recurring with
                 | some rp =>
                   .val { interval := Attr.ofPy rp.interval
                          interval_count := ofParam2 rp.interval_count
                          usage_type := ofParam2 rp.usage_type
                          trial_period_days := ofParam2 rp.trial_period_days }
                 | none => .nul
    billing_scheme := ofParam2 p.billing_scheme
    tiers := match p.tiers with
             | some ts => .val (ts.map (fun tp =>
                 { up_to := ofParamV tp.up_to
                   unit_amount := ofParamV tp.unit_amount
                   flat_amount := ofParamV tp.flat_amount }))
             | none => .nul
    tiers_mode := ofParam2 p.tiers_mode
    transform_quantity := .nul
    active := ofParam2 p.active
    nickname := ofParam2 p.nickname
    lookup_key := ofParamV p.lookup_key
    tax_behavior := ofParam2 p.tax_behavior }

/-- The destination price after an API modify with `p` (unreachable:
prices report `can_update = False`). -/
def applyUpdatePrice (p : PriceParams) (e : Ent) : Ent :=
  { e with
    active := updAttr e.active p.active
    nickname := updAttr e.nickname p.nickname
    metadata := match p.metadata with
                | some l => .val l
                | none => e.metadata }

/-- The destination coupon created from `p`: the requested `test_<id>` id
is honoured when present. -/
def applyCreateCoupon (nid : String) (p : CouponParams) : Ent :=
  { id := p.id.getD nid
    metadata := .val (p.metadata.getD [])
    percent_off := ofParamV p.percent_off
    amount_off := ofParamV p.amount_off
    currency := ofParam2 p.currency
    duration := ofParam2 p.duration
    duration_in_months := ofParamV p.duration_in_months
    name := ofParam2 p.name
    max_redemptions := ofParamV p.max_redemptions
    redeem_by := ofParamV p.redeem_by
    applies_to := match p.applies_to with
                  | some l => .val { products := .val l }
                  | none => .nul }

/-- The destination coupon after an API modify with `p`. -/
def applyUpdateCoupon (p : CouponParams) (e : Ent) : Ent :=
  { e with
    name := updAttr e.name p.name
    metadata := match p.metadata with
                | some l => .val l
                | none => e.metadata }

/-! ## The Stripe client (`src/stripe_client.py`) -/

/-- The two configured accounts. -/
inductive StEnv where
  | production
  | test
deriving DecidableEq

/-- `StripeClientError` causes. -/
inductive CErr where
  | forbiddenWrite
  | unknownResource
  | apiError
deriving DecidableEq

/-- What a client call hands back: a Stripe object, or — in dry-run —
the plain Python dict `{"id": ..., **params}`. -/
inductive PyObj (P : Type) where
  | obj : Ent → PyObj P
  | rawDict : String → P → PyObj P
deriving DecidableEq

/-- `value.id`: attribute access works on a Stripe object but raises
`AttributeError` on a plain dict. -/
def PyObj.attrId : PyObj P → Except Unit String
  | .obj e => .ok e.id
  | .rawDict _ _ => .error ()

/-- `StripeClient.create` (lines 124-176): the production guard fires
first; dry-run returns the synthetic dict echoing the params; otherwise
the store builds the record via `mk`. -/
def clientCreate (dryRun : Bool) (env : StEnv) (resource : String)
    (params : P) (mk : P → Ent) : Except CErr (PyObj P) :=
  if env = .production then .error .forbiddenWrite
  else if dryRun then .ok (.rawDict ("dry_run_" ++ resource ++ "_id") params)
  else .ok (.obj (mk params))

/-- `StripeClient.update` (lines 178-233). -/
def clientUpdate (dryRun : Bool) (env : StEnv) (_resource : String)
    (rid : String) (params : P) (upd : P → Ent) : Except CErr (PyObj P) :=
  if env = .production then .error .forbiddenWrite
  else if dryRun then .ok (.rawDict rid params)
  else .ok (.obj (upd params))

/-! ## The copy loop (`BaseCopier`) -/

/-- The per-kind hooks of `BaseCopier` subclasses. -/
structure KindOps (P : Type) where
  resourceName : String
  canUpdate : Bool
  find : PM → Ent → List Ent → Except Unit (Option Ent)
  createParams : PM → Ent → Except Unit P
  updateParams : Ent → P
  inject : P → String → P
  applyCreate : String → P → Ent
  applyUpdate : P → Ent → Ent

/-- Per-kind counters (`IDMapper.stats[kind]`). -/
structure Stats where
  created : Nat := 0
  updated : Nat := 0
  errors : Nat := 0
deriving DecidableEq

/-- State threaded through one `copy` run: destination store contents,
the mapper's table and counters for this kind, the server's id counter,
and the API write calls performed. -/
structure RunState (P : Type) where
  env : List Ent
  mapping : PyDict
  stats : Stats
  fresh : Nat
  createCalls : List P := []
  updateCalls : List (String × P) := []
deriving DecidableEq

/-- Server-assigned id for the `n`-th record created in a run. -/
def freshId (n : Nat) : String := "sim_" ++ toString n

/-- Whether an id lies in the server's fresh-id namespace. -/
def startsSim (s : String) : Bool := s.take 4 == "sim_"

/-- The branch `copy_one` takes for one source record; it depends only on
the matching snapshot `D`, the product table `pm` and the record itself. -/
inductive StepClass (P : Type) where
  | errored : StepClass P
  | noop : Ent → StepClass P
  | upd : Ent → P → StepClass P
  | create : P → StepClass P
deriving DecidableEq

/-- Classify one source record (`BaseCopier.copy_one` plus the parameter
building of `create_in_test`/`update_in_test`). -/
def stepClass (ops : KindOps P) (pm : PM) (D : List Ent) (s : Ent) :
    StepClass P :=
  match ops.find pm s D with
  | .error _ => .errored
  | .ok (some m) =>
    if ops.canUpdate then .upd m (ops.updateParams s) else .noop m
  | .ok none =>
    match ops.createParams pm s with
    | .error _ => .errored
    | .ok p => .create p

/-- One iteration of the per-record loop of `BaseCopier.copy`
(lines 257-266), with its try/except as the `errored` branch. -/
def copyOneStep (ops : KindOps P) (dryRun : Bool) (pm : PM) (D : List Ent)
    (st : RunState P) (s : Ent) : RunState P :=
  match stepClass ops pm D s with
  | .errored => { st with stats := { st.stats with errors := st.stats.errors + 1 } }
  | .noop _ => st
  | .upd m p =>
    match clientUpdate dryRun .test ops.resourceName m.id p
        (fun q => ops.applyUpdate q m) with
    | .error _ =>
      { st with
        stats := { st.stats with errors := st.stats.errors + 1 }
        updateCalls := st.updateCalls ++ [(m.id, p)] }
    | .ok _ =>
      { st with
        env := if dryRun then st.env
               else st.env.map (fun e => if e.id == m.id then ops.applyUpdate p e else e)
        mapping := dset st.mapping s.id m.id
        stats := { st.stats with updated := st.stats.updated + 1 }
        updateCalls := st.updateCalls ++ [(m.id, p)] }
  | .create p =>
    let pI := ops.inject p s.id
    match clientCreate dryRun .test ops.resourceName pI
        (ops.applyCreate (freshId st.fresh)) with
    | .error _ =>
      { st with
        stats := { st.stats with errors := st.stats.errors + 1 }
        createCalls := st.createCalls ++ [pI] }
    | .ok po =>
      match po.attrId with
      | .error _ =>
        -- dry run: `test_entity` is a plain dict, `.id` raises in add_mapping
        { st with
          stats := { st.stats with errors := st.stats.errors + 1 }
          createCalls := st.createCalls ++ [pI] }
      | .ok tid =>
        { st with
          env := st.env ++ [ops.applyCreate (freshId st.fresh) pI]
          mapping := dset st.mapping s.id tid
          stats := { st.stats with created := st.stats.created + 1 }
          fresh := st.fresh + 1
          createCalls := st.createCalls ++ [pI] }

/-- The whole per-record loop over the source records `S`, matching
against the up-front snapshot `D`. -/
def runK (ops : KindOps P) (dryRun : Bool) (pm : PM) (S D : List Ent)
    (st0 : RunState P) : RunState P :=
  S.foldl (copyOneStep ops dryRun pm D) st0

/-- Run state at the start of a `copy` call. -/
def initState (D : List Ent) (mapping0 : PyDict) (stats0 : Stats) :
    RunState P :=
  { env := D, mapping := mapping0, stats := stats0, fresh := 0 }

/-- What `BaseCopier.copy` returns together with the state it leaves. -/
structure CopyResult (P : Type) where
  ret : Stats
  state : RunState P
deriving DecidableEq

/-- `BaseCopier.copy` (lines 229-279): an empty source listing returns the
literal zero dictionary and does nothing; otherwise the loop runs and the
mapper's cumulative per-kind counters are returned. -/
def copyK (ops : KindOps P) (dryRun : Bool) (pm : PM) (S D : List Ent)
    (mapping0 : PyDict) (stats0 : Stats) : CopyResult P :=
  if S.isEmpty then
    { ret := {}, state := initState D mapping0 stats0 }
  else
    let fin := runK ops dryRun pm S D (initState D mapping0 stats0)
    { ret := fin.stats, state := fin }

/-- Metadata injection of `create_in_test` (`base.py` lines 149-152),
identical for every params shape with a metadata key. -/
def injectMeta (md : Option PyDict) (sid : String) : Option PyDict :=
  some (dset (md.getD []) "prod_id" sid)

/-- `ProductCopier` as a `KindOps`. -/
def productOps : KindOps ProductParams :=
  { resourceName := "products"
    canUpdate := true
    find := fun _pm s D => findProducts s D
    createParams := fun _pm s => productCreateParams s
    updateParams := productUpdateParams
    inject := fun p sid => { p with metadata := injectMeta p.metadata sid }
    applyCreate := applyCreateProduct
    applyUpdate := applyUpdateProduct }

/-- `TaxRateCopier` as a `KindOps`. -/
def taxRateOps : KindOps TaxRateParams :=
  { resourceName := "tax_rates"
    canUpdate := true
    find := fun _pm s D => findTaxRates s D
    createParams := fun _pm s => taxRateCreateParams s
    updateParams := taxRateUpdateParams
    inject := fun p sid => { p with metadata := injectMeta p.metadata sid }
    applyCreate := applyCreateTaxRate
    applyUpdate := applyUpdateTaxRate }

/-- `PriceCopier` as a `KindOps` (`can_update` is false). -/
def priceOps : KindOps PriceParams :=
  { resourceName := "prices"
    canUpdate := false
    find := findPrices
    createParams := priceCreateParams
    updateParams := priceUpdateParams
    inject := fun p sid => { p with metadata := injectMeta p.metadata sid }
    applyCreate := applyCreatePrice
    applyUpdate := applyUpdatePrice }

/-- `CouponCopier` as a `KindOps`. -/
def couponOps : KindOps CouponParams :=
  { resourceName := "coupons"
    canUpdate := true
    find := fun _pm s D => .ok (findCoupons s D)
    createParams := fun pm s => .ok (couponCreateParams pm s)
    updateParams := couponUpdateParams
    inject := fun p sid => { p with metadata := injectMeta p.metadata sid }
    applyCreate := applyCreateCoupon
    applyUpdate := applyUpdateCoupon }

/-! ## The orchestrator (`main.py`) -/

/-- The keys of `copiers_map` (`main.py` lines 114-119), in construction
order. -/
def validEntities : List String := ["tax_rates", "products", "prices", "coupons"]

/-- `entities_to_copy` (`main.py` lines 123-129), taking the already
split-and-stripped `--entities` items: requested kinds are kept in request
order, unknown ones dropped with a warning; the copy loop of lines
155-158 then processes exactly this list in this order. -/
def entitiesToCopy (requested : List String) : List String :=
  requested.filter (fun e => validEntities.contains e)

/-! ## Kind-indexed dispatch, for claims quantified over resource kinds -/

/-- The four resource kinds. -/
inductive RKind where
  | tax_rates
  | products
  | prices
  | coupons
deriving DecidableEq

/-- Destination store and counters after one full (non-dry-run) pass of a
kind over sources `S` and destination snapshot `D`, with a fresh mapper
and product table `pm`. -/
def kindRunOut (k : RKind) (pm : PM) (S D : List Ent) : List Ent × Stats :=
  match k with
  | .tax_rates =>
    let r := runK taxRateOps false pm S D (initState D [] {})
    (r.env, r.stats)
  | .products =>
    let r := runK productOps false pm S D (initState D [] {})
    (r.env, r.stats)
  | .prices =>
    let r := runK priceOps false pm S D (initState D [] {})
    (r.env, r.stats)
  | .coupons =>
    let r := runK couponOps false pm S D (initState D [] {})
    (r.env, r.stats)

/-- The destination id one source record's step would update (`none` when
the record is not matched-and-updated). -/
def touchOf {P : Type} (ops : KindOps P) (pm : PM) (D : List Ent)
    (x : Ent) : Option String :=
  match stepClass ops pm D x with
  | .upd m _ => some m.id
  | _ => none

/-- The destination id a source record's first-run update lands on, by
kind. -/
def kindTouch (k : RKind) (pm : PM) (D : List Ent) : Ent → Option String :=
  match k with
  | .tax_rates => touchOf taxRateOps pm D
  | .products => touchOf productOps pm D
  | .prices => touchOf priceOps pm D
  | .coupons => touchOf couponOps pm D

/-- Branch tag of one source record's processing. -/
inductive Tag where
  | errored
  | noop
  | upd
  | create
deriving DecidableEq

/-- Tag of a `StepClass`. -/
def StepClass.tag : StepClass P → Tag
  | .errored => .errored
  | .noop _ => .noop
  | .upd _ _ => .upd
  | .create _ => .create

/-- Branch taken for one source record, by kind. -/
def kindTag (k : RKind) (pm : PM) (D : List Ent) (s : Ent) : Tag :=
  match k with
  | .tax_rates => (stepClass taxRateOps pm D s).tag
  | .products => (stepClass productOps pm D s).tag
  | .prices => (stepClass priceOps pm D s).tag
  | .coupons => (stepClass couponOps pm D s).tag

/-! ## Acceptance predicates used by the idempotence analysis -/

/-- A destination product some strategy of `findProducts` accepts for `s`. -/
def acceptsProducts (s e : Ent) : Prop :=
  strat1 s e = true ∨ prodStrat2 s e = .ok true

/-- A destination tax rate some strategy of `findTaxRates` accepts for `s`. -/
def acceptsTaxRates (s e : Ent) : Prop :=
  strat1 s e = true ∨ taxStrat2 s e = .ok true

/-- A destination coupon some strategy of `findCoupons` accepts for `s`. -/
def acceptsCoupons (s e : Ent) : Prop :=
  strat1 s e = true ∨ (e.id == "test_" ++ s.id) = true ∨
    (∃ sn, s.name = .val sn ∧ strT sn = true ∧ couponStrat3 sn s e = true)

/-- A destination price some strategy of `findPrices` accepts for `s`. -/
def acceptsPrices (pm : PM) (s e : Ent) : Prop :=
  strat1 s e = true ∨
    (∃ sl, s.lookup_key = .val sl ∧ strT sl = true ∧ priceStrat2 sl e = true) ∨
    (∃ r tid, s.product.acc = .ok (some r) ∧ dget pm r.norm = some tid ∧
      tid ≠ "" ∧ priceStrat3Pred s tid e = .ok true)

/-! ## Concrete records used by witnesses and counterexamples -/

/-- The §8 scenario source product. -/
def srcWidget : Ent := { id := "prod_A", name := .val "Widget" }

/-- A source price that matches `dstLkPrice` by lookup_key. -/
def srcLkPrice : Ent := { id := "pp1", lookup_key := .val "lk" }

/-- A destination price carrying lookup_key `lk` and no metadata. -/
def dstLkPrice : Ent := { id := "tp1", lookup_key := .val "lk" }

/-- Aliasing scenario, first source product (has metadata). -/
def cxProd1 : Ent := { id := "p1", name := .val "N", metadata := .val [("x", "1")] }

/-- Aliasing scenario, second source product (no metadata). -/
def cxProd2 : Ent := { id := "p2", name := .val "N" }

/-- Aliasing scenario, the single pre-existing destination product. -/
def cxDest : Ent := { id := "tm", name := .val "N" }

/-- First run of the aliasing scenario. -/
def cxRun1 : RunState ProductParams :=
  runK productOps false [] [cxProd1, cxProd2] [cxDest] (initState [cxDest] [] {})

/-- Second run of the aliasing scenario, on the unchanged sources and the
destination store the first run left. -/
def cxRun2 : RunState ProductParams :=
  runK productOps false [] [cxProd1, cxProd2] cxRun1.env (initState cxRun1.env [] {})

/-- A source price whose product resolves to destination id `T`. -/
def c8Src : Ent := { id := "sp8", currency := .val "usd", product := .val (.idStr "P") }

/-- A candidate destination price with a present-but-null currency. -/
def c8CandNul : Ent := { id := "c81", currency := .nul, product := .val (.idStr "T") }

/-- A candidate destination price with no currency attribute at all. -/
def c8CandAbs : Ent := { id := "c82", currency := .absent, product := .val (.idStr "T") }

/-- A source price that reaches the structural strategy with every
compared attribute present: product resolving to `T`, currency, a
unit_amount, and a recurring block with interval and interval_count. -/
def c8SrcFull : Ent :=
  { id := "sp8f", currency := .val "usd", product := .val (.idStr "P"),
    unit_amount := .val 500,
    recurring := .val { interval := .val "month", interval_count := .val 1 } }

/-- A recurring block whose interval is present but null. -/
def c8recNulInterval : Recurring := { interval := .nul }

/-- A recurring block with no interval attribute. -/
def c8recNoInterval : Recurring := {}

/-- A recurring block whose interval_count is present but null. -/
def c8recNulCount : Recurring := { interval := .val "month", interval_count := .nul }

/-- A recurring block with no interval_count attribute. -/
def c8recNoCount : Recurring := { interval := .val "month" }

/-- Candidate with a present-but-null product. -/
def c8dPn : Ent := { id := "d1", product := .nul }

/-- Candidate with no product attribute. -/
def c8dPa : Ent := { id := "d2" }

/-- Candidate with matching product and null currency. -/
def c8dCn : Ent := { id := "d3", product := .val (.idStr "T"), currency := .nul }

/-- Candidate with matching product and no currency attribute. -/
def c8dCa : Ent := { id := "d4", product := .val (.idStr "T") }

/-- Candidate matching through currency with a null unit_amount. -/
def c8dUn : Ent :=
  { id := "d5", product := .val (.idStr "T"), currency := .val "usd",
    unit_amount := .nul }

/-- Candidate matching through currency with no unit_amount attribute. -/
def c8dUa : Ent :=
  { id := "d6", product := .val (.idStr "T"), currency := .val "usd" }

/-- Candidate matching through unit_amount whose recurring interval is
null. -/
def c8dIn : Ent :=
  { id := "d7", product := .val (.idStr "T"), currency := .val "usd",
    unit_amount := .val 500, recurring := .val c8recNulInterval }

/-- Candidate matching through unit_amount whose recurring block lacks
the interval attribute. -/
def c8dIa : Ent :=
  { id := "d8", product := .val (.idStr "T"), currency := .val "usd",
    unit_amount := .val 500, recurring := .val c8recNoInterval }

/-- Candidate matching through the interval whose interval_count is
null. -/
def c8dKn : Ent :=
  { id := "d9", product := .val (.idStr "T"), currency := .val "usd",
    unit_amount := .val 500, recurring := .val c8recNulCount }

/-- Candidate matching through the interval whose recurring block lacks
the interval_count attribute. -/
def c8dKa : Ent :=
  { id := "d10", product := .val (.idStr "T"), currency := .val "usd",
    unit_amount := .val 500, recurring := .val c8recNoCount }

/-- A source price referencing an unmapped product. -/
def c6Price : Ent := { id := "pr1", currency := .val "usd", product := .val (.idStr "PX") }

/-- A subsequent source price, to show processing continues. -/
def c6Next : Ent := { id := "pr2", currency := .val "eur", product := .val (.idStr "PX") }

/-- A coupon restricted to products `P` (mapped) and `Q` (unmapped). -/
def c9Coupon : Ent :=
  { id := "cp9", percent_off := .val 20, duration := .val "once",
    applies_to := .val { products := .val ["P", "Q"] } }

/-! # Theorems -/

/-- Claim C2: for every resource kind and every parameter set, the
gateway's create and update operations against the production environment
fail with the forbidden-write error, whatever the dry-run flag — the
production guard fires before the dry-run branch and before the store is
consulted (the result does not depend on `mk`/`upd`). -/
theorem claim_c2_forbidden_write (P : Type) (dryRun : Bool) (resource : String)
    (params : P) (mk : P → Ent) (rid : String) (upd : P → Ent) :
    clientCreate dryRun .production resource params mk = .error .forbiddenWrite ∧
    clientUpdate dryRun .production resource rid params upd = .error .forbiddenWrite := by
  exact ⟨rfl, rfl⟩

/-- Claim C7 (failing input): with `--entities prices,products` the
orchestrator processes `prices` before `products` — the kinds are kept in
request order, not reordered into dependency order. -/
theorem claim_c7_request_order :
    entitiesToCopy ["prices", "products"] = ["prices", "products"] := by
  rfl

/-- Claim C5: source products `[⟨prod_A, Widget⟩]`, empty destination,
dry-run off: exactly one create call, whose params carry the injected
`metadata.prod_id = "prod_A"` although the source has no metadata; one
mapping entry from `prod_A` to the new destination id; counters 1/0/0. -/
theorem claim_c5_product_scenario :
    (copyK productOps false [] [srcWidget] [] [] {}).state.createCalls =
      [{ name := some (some "Widget"),
         metadata := some [("prod_id", "prod_A")] }] ∧
    (copyK productOps false [] [srcWidget] [] [] {}).state.updateCalls = [] ∧
    (copyK productOps false [] [srcWidget] [] [] {}).state.mapping =
      [("prod_A", freshId 0)] ∧
    (copyK productOps false [] [srcWidget] [] [] {}).state.env.map Ent.id =
      [freshId 0] ∧
    (copyK productOps false [] [srcWidget] [] [] {}).ret =
      { created := 1, updated := 0, errors := 0 } := by
  refine ⟨rfl, rfl, rfl, rfl, rfl⟩

/-- Claim C3 (failing input): in dry-run mode the client itself does
return the synthetic dict echoing the parameters, but the copier then
evaluates `test_entity.id` on that plain dict, which raises, so the
unmatched source record is counted as an error, no in-memory mapping is
recorded, and the created counter stays zero — contradicting the claimed
dry-run simulation of a create. -/
theorem claim_c3_dry_run_create_bug :
    clientCreate true .test "products"
        ({ name := some (some "Widget"),
           metadata := some [("prod_id", "prod_A")] } : ProductParams)
        (applyCreateProduct (freshId 0)) =
      .ok (.rawDict "dry_run_products_id"
        { name := some (some "Widget"),
          metadata := some [("prod_id", "prod_A")] }) ∧
    (copyK productOps true [] [srcWidget] [] [] {}).ret =
      { created := 0, updated := 0, errors := 1 } ∧
    (copyK productOps true [] [srcWidget] [] [] {}).state.mapping = [] ∧
    (copyK productOps true [] [srcWidget] [] [] {}).state.env = [] := by
  refine ⟨rfl, rfl, rfl, rfl⟩

/-- Claim C10: an empty production listing makes `copy` return the
literal zero statistics — not the mapper's (possibly nonzero) cumulative
counters — perform no create or update call, and leave the destination
store, the mapping table and the counters untouched; a non-empty listing
returns the mapper's cumulative per-kind counter record. -/
theorem claim_c10_empty_listing (P : Type) (ops : KindOps P) (dryRun : Bool)
    (pm : PM) (D : List Ent) (mapping0 : PyDict) (stats0 : Stats)
    (S : List Ent) (hS : S ≠ []) :
    (copyK ops dryRun pm [] D mapping0 stats0).ret =
      { created := 0, updated := 0, errors := 0 } ∧
    (copyK ops dryRun pm [] D mapping0 stats0).state =
      initState D mapping0 stats0 ∧
    (copyK ops dryRun pm [] D mapping0 stats0).state.createCalls = [] ∧
    (copyK ops dryRun pm [] D mapping0 stats0).state.updateCalls = [] ∧
    (copyK ops dryRun pm S D mapping0 stats0).ret =
      (copyK ops dryRun pm S D mapping0 stats0).state.stats := by
  refine ⟨rfl, rfl, rfl, rfl, ?_⟩
  have h : S.isEmpty = false := by
    cases S with
    | nil => exact absurd rfl hS
    | cons a t => rfl
  simp [copyK, h]

/-- Witness for C10 at a concrete input with nonzero prior counters. -/
theorem claim_c10_empty_listing_witness :
    (copyK productOps false [] [] [srcWidget] [("a", "b")]
        { created := 5, updated := 6, errors := 7 }).ret =
      { created := 0, updated := 0, errors := 0 } ∧
    (copyK productOps false [] [] [srcWidget] [("a", "b")]
        { created := 5, updated := 6, errors := 7 }).state =
      initState [srcWidget] [("a", "b")]
        { created := 5, updated := 6, errors := 7 } ∧
    (copyK productOps false [] [] [srcWidget] [("a", "b")]
        { created := 5, updated := 6, errors := 7 }).state.createCalls = [] ∧
    (copyK productOps false [] [] [srcWidget] [("a", "b")]
        { created := 5, updated := 6, errors := 7 }).state.updateCalls = [] ∧
    (copyK productOps false [] [srcWidget] [srcWidget] [("a", "b")]
        { created := 5, updated := 6, errors := 7 }).ret =
      (copyK productOps false [] [srcWidget] [srcWidget] [("a", "b")]
        { created := 5, updated := 6, errors := 7 }).state.stats :=
  claim_c10_empty_listing ProductParams productOps false [] [srcWidget]
    [("a", "b")] { created := 5, updated := 6, errors := 7 } [srcWidget]
    (by simp)

/-! ## Inversion and single-step equation lemmas -/

theorem stepClass_noop_inv {P : Type} {ops : KindOps P} {pm : PM} {D : List Ent}
    {s : Ent} {m : Ent} (h : stepClass ops pm D s = .noop m) :
    ops.find pm s D = .ok (some m) ∧ ops.canUpdate = false := by
  unfold stepClass at h
  split at h
  · exact absurd h (by simp)
  · next m2 heq =>
    split at h
    · exact absurd h (by simp)
    · next hu =>
      simp only [StepClass.noop.injEq] at h
      subst h
      exact ⟨heq, by simpa using hu⟩
  · split at h
    · exact absurd h (by simp)
    · exact absurd h (by simp)

theorem stepClass_upd_inv {P : Type} {ops : KindOps P} {pm : PM} {D : List Ent}
    {s : Ent} {m : Ent} {p : P} (h : stepClass ops pm D s = .upd m p) :
    ops.find pm s D = .ok (some m) ∧ p = ops.updateParams s ∧
      ops.canUpdate = true := by
  unfold stepClass at h
  split at h
  · exact absurd h (by simp)
  · next m2 heq =>
    split at h
    · next hu =>
      simp only [StepClass.upd.injEq] at h
      exact ⟨by rw [heq, h.1], h.2.symm, hu⟩
    · exact absurd h (by simp)
  · split at h
    · exact absurd h (by simp)
    · exact absurd h (by simp)

theorem stepClass_create_inv {P : Type} {ops : KindOps P} {pm : PM}
    {D : List Ent} {s : Ent} {p : P} (h : stepClass ops pm D s = .create p) :
    ops.find pm s D = .ok none ∧ ops.createParams pm s = .ok p := by
  unfold stepClass at h
  split at h
  · exact absurd h (by simp)
  · split at h
    · exact absurd h (by simp)
    · exact absurd h (by simp)
  · next heq =>
    split at h
    · exact absurd h (by simp)
    · next p2 hcp =>
      simp only [StepClass.create.injEq] at h
      subst h
      exact ⟨heq, hcp⟩

theorem copyOneStep_eq_errored {P : Type} {ops : KindOps P} {pm : PM}
    {D : List Ent} {s : Ent} (dr : Bool) (st : RunState P)
    (h : stepClass ops pm D s = .errored) :
    copyOneStep ops dr pm D st s =
      { st with stats := { st.stats with errors := st.stats.errors + 1 } } := by
  simp [copyOneStep, h]

theorem copyOneStep_eq_noop {P : Type} {ops : KindOps P} {pm : PM}
    {D : List Ent} {s : Ent} {m : Ent} (dr : Bool) (st : RunState P)
    (h : stepClass ops pm D s = .noop m) :
    copyOneStep ops dr pm D st s = st := by
  simp [copyOneStep, h]

theorem copyOneStep_eq_upd {P : Type} {ops : KindOps P} {pm : PM}
    {D : List Ent} {s : Ent} {m : Ent} {p : P} (st : RunState P)
    (h : stepClass ops pm D s = .upd m p) :
    copyOneStep ops false pm D st s =
      { st with
        env := st.env.map (fun e => if e.id == m.id then ops.applyUpdate p e else e)
        mapping := dset st.mapping s.id m.id
        stats := { st.stats with updated := st.stats.updated + 1 }
        updateCalls := st.updateCalls ++ [(m.id, p)] } := by
  simp [copyOneStep, h, clientUpdate]

theorem copyOneStep_eq_create {P : Type} {ops : KindOps P} {pm : PM}
    {D : List Ent} {s : Ent} {p : P} (st : RunState P)
    (h : stepClass ops pm D s = .create p) :
    copyOneStep ops false pm D st s =
      { st with
        env := st.env ++ [ops.applyCreate (freshId st.fresh) (ops.inject p s.id)]
        mapping := dset st.mapping s.id
          ((ops.applyCreate (freshId st.fresh) (ops.inject p s.id)).id)
        stats := { st.stats with created := st.stats.created + 1 }
        fresh := st.fresh + 1
        createCalls := st.createCalls ++ [ops.inject p s.id] } := by
  simp [copyOneStep, h, clientCreate, PyObj.attrId]

/-- Claim C4 (failing input): a source price that matches an existing
destination price is processed without any counter increment at all —
`can_update` is false, so `update_in_test` returns before incrementing —
contradicting "exactly one of the three counters per processed record". -/
theorem claim_c4_counterexample :
    (runK priceOps false [] [srcLkPrice] [dstLkPrice]
        (initState [dstLkPrice] [] {})).stats =
      { created := 0, updated := 0, errors := 0 } := by
  rfl

/-- Claim C4 as amended: every processed source record increments exactly
one of the three per-kind counters — an error instead of, not in addition
to, created/updated — except a record that matches an existing destination
record of a kind that does not support updates, which increments no
counter at all. -/
theorem claim_c4_amended (P : Type) (ops : KindOps P) (dryRun : Bool)
    (pm : PM) (D : List Ent) (st : RunState P) (s : Ent) :
    ((∃ m, stepClass ops pm D s = .noop m) ∧ ops.canUpdate = false ∧
      (copyOneStep ops dryRun pm D st s).stats = st.stats) ∨
    (copyOneStep ops dryRun pm D st s).stats =
      { st.stats with errors := st.stats.errors + 1 } ∨
    (copyOneStep ops dryRun pm D st s).stats =
      { st.stats with created := st.stats.created + 1 } ∨
    (copyOneStep ops dryRun pm D st s).stats =
      { st.stats with updated := st.stats.updated + 1 } := by
  cases h : stepClass ops pm D s with
  | errored =>
    right; left
    rw [copyOneStep_eq_errored dryRun st h]
  | noop m =>
    left
    exact ⟨⟨m, rfl⟩, (stepClass_noop_inv h).2, by rw [copyOneStep_eq_noop dryRun st h]⟩
  | upd m p =>
    right; right; right
    cases dryRun with
    | false => rw [copyOneStep_eq_upd st h]
    | true => simp [copyOneStep, h, clientUpdate]
  | create p =>
    cases dryRun with
    | false =>
      right; right; left
      rw [copyOneStep_eq_create st h]
    | true =>
      right; left
      simp [copyOneStep, h, clientCreate, PyObj.attrId]

/-- Claim C6: a source price whose product reference has no entry in the
products mapping, and which matches no destination price, is counted as
exactly one error (the `ValueError` of `get_create_params` is caught at
the per-record boundary) and the loop carries on with the remaining
source records unchanged. -/
theorem claim_c6_price_missing_dependency (pm : PM) (s : Ent)
    (ys D : List Ent) (st : RunState PriceParams) (r : ProdRef)
    (href : s.product = .val r)
    (hmap : dget pm r.norm = none)
    (hfind : findPrices pm s D = .ok none) :
    runK priceOps false pm (s :: ys) D st =
      runK priceOps false pm ys D
        { st with stats := { st.stats with errors := st.stats.errors + 1 } } := by
  have hcp : priceCreateParams pm s = .error () := by
    cases hcur : s.currency with
    | absent => simp [priceCreateParams, Attr.acc, hcur]
    | nul => simp [priceCreateParams, Attr.acc, hcur, href, hmap]
    | val c => simp [priceCreateParams, Attr.acc, hcur, href, hmap]
  have hclass : stepClass priceOps pm D s = .errored := by
    simp [stepClass, priceOps, hfind, hcp]
  show List.foldl (copyOneStep priceOps false pm D) st (s :: ys) = _
  rw [List.foldl_cons, copyOneStep_eq_errored false st hclass]
  rfl

/-- Witness for C6: the first of two prices references the unmapped
product `PX`; it is counted as one error and the second is still
processed. -/
theorem claim_c6_witness :
    runK priceOps false [] [c6Price, c6Next] [] (initState [] [] {}) =
      runK priceOps false [] [c6Next] []
        { initState [] [] {} with
          stats := { (initState [] [] {} : RunState PriceParams).stats with
            errors := (initState [] [] {} : RunState PriceParams).stats.errors + 1 } } :=
  claim_c6_price_missing_dependency [] c6Price [c6Next] []
    (initState [] [] {}) (.idStr "PX") rfl rfl rfl

/-- Claim C8 (failing input): a destination price that entirely lacks the
compared `currency` attribute makes the structural strategy raise (the
record is then counted as an error), rather than being skipped as
non-equal. -/
theorem claim_c8_counterexample :
    findPrices [("P", "T")] c8Src [c8CandAbs] = .error () := by
  rfl

/-- On a singleton candidate list, once strategy 1 and the lookup_key
strategy do not fire and the source product resolves, `find_existing`
reduces to the structural predicate on that candidate. -/
theorem findPrices_singleton_strat3 (pm : PM) (s c : Ent) (r : ProdRef)
    (tid : String)
    (hmd : c.metadata = .absent)
    (hlk : attrIfTruthy strT s.lookup_key = none)
    (hsp : s.product = .val r) (hmap : dget pm r.norm = some tid)
    (htid : tid ≠ "") :
    findPrices pm s [c] =
      (match priceStrat3Pred s tid c with
       | .error u => .error u
       | .ok true => .ok (some c)
       | .ok false => .ok none) := by
  have hs1 : strat1 s c = false := by
    simp [strat1, mdDefault, hmd, Attr.getD]
  have hstage2 : (match s.lookup_key with
      | Attr.val sl => if strT sl = true then List.find? (priceStrat2 sl) [c] else none
      | _ => (none : Option Ent)) = none := by
    cases hk : s.lookup_key with
    | absent => rfl
    | nul => rfl
    | val sl =>
      rw [hk] at hlk
      simp only [attrIfTruthy] at hlk
      have hT : strT sl = false := by
        by_cases hst : strT sl
        · rw [if_pos hst] at hlk; exact absurd hlk (by simp)
        · simpa using hst
      simp [hT]
  unfold findPrices
  rw [hstage2]
  simp only [List.find?, hs1]
  unfold priceStage3
  rw [hsp]
  simp only [Attr.acc, hmap]
  rw [if_neg htid]
  unfold firstMatchE
  cases priceStrat3Pred s tid c with
  | error u => rfl
  | ok b =>
    cases b with
    | true => rfl
    | false => rfl

/-- Claim C8 as amended, covering every compared attribute of the
structural strategy.  For a source price that reaches the structural
strategy with product (resolving to `tid`), currency, unit_amount, and a
recurring block with interval and interval_count all present: a candidate
whose compared attribute — product, currency, unit_amount, interval or
interval_count — is present but null fails that sub-check and is skipped
(no match, no wildcard, no error), while a candidate from which that
attribute is missing altogether makes `find_existing` raise; a raising
`find_existing` is caught at the per-record boundary and counted as
exactly one error for that source record. -/
theorem claim_c8_amended (pm : PM) (s : Ent) (r : ProdRef)
    (tid cur : String) (ua : Int) (sr tIn tIa tKn tKa : Recurring)
    (iv : String) (ic : Int)
    (cPn cPa cCn cCa cUn cUa cIn cIa cKn cKa : Ent)
    (hlk : attrIfTruthy strT s.lookup_key = none)
    (hsp : s.product = .val r) (hmap : dget pm r.norm = some tid)
    (htid : tid ≠ "")
    (hscur : s.currency = .val cur)
    (hsua : s.unit_amount = .val ua)
    (hsrec : s.recurring = .val sr)
    (hsiv : sr.interval = .val iv)
    (hsic : sr.interval_count = .val ic)
    (hm1 : cPn.metadata = .absent) (hm2 : cPa.metadata = .absent)
    (hm3 : cCn.metadata = .absent) (hm4 : cCa.metadata = .absent)
    (hm5 : cUn.metadata = .absent) (hm6 : cUa.metadata = .absent)
    (hm7 : cIn.metadata = .absent) (hm8 : cIa.metadata = .absent)
    (hm9 : cKn.metadata = .absent) (hm10 : cKa.metadata = .absent)
    (hPn : cPn.product = .nul)
    (hPa : cPa.product = .absent)
    (hCnp : cCn.product = .val (.idStr tid)) (hCnc : cCn.currency = .nul)
    (hCap : cCa.product = .val (.idStr tid)) (hCac : cCa.currency = .absent)
    (hUnp : cUn.product = .val (.idStr tid)) (hUnc : cUn.currency = .val cur)
    (hUnu : cUn.unit_amount = .nul)
    (hUap : cUa.product = .val (.idStr tid)) (hUac : cUa.currency = .val cur)
    (hUau : cUa.unit_amount = .absent)
    (hInp : cIn.product = .val (.idStr tid)) (hInc : cIn.currency = .val cur)
    (hInu : cIn.unit_amount = .val ua) (hInr : cIn.recurring = .val tIn)
    (hIni : tIn.interval = .nul)
    (hIap : cIa.product = .val (.idStr tid)) (hIac : cIa.currency = .val cur)
    (hIau : cIa.unit_amount = .val ua) (hIar : cIa.recurring = .val tIa)
    (hIai : tIa.interval = .absent)
    (hKnp : cKn.product = .val (.idStr tid)) (hKnc : cKn.currency = .val cur)
    (hKnu : cKn.unit_amount = .val ua) (hKnr : cKn.recurring = .val tKn)
    (hKni : tKn.interval = .val iv) (hKnk : tKn.interval_count = .nul)
    (hKap : cKa.product = .val (.idStr tid)) (hKac : cKa.currency = .val cur)
    (hKau : cKa.unit_amount = .val ua) (hKar : cKa.recurring = .val tKa)
    (hKai : tKa.interval = .val iv) (hKak : tKa.interval_count = .absent) :
    findPrices pm s [cPn] = .ok none ∧
    findPrices pm s [cPa] = .error () ∧
    findPrices pm s [cCn] = .ok none ∧
    findPrices pm s [cCa] = .error () ∧
    findPrices pm s [cUn] = .ok none ∧
    findPrices pm s [cUa] = .error () ∧
    findPrices pm s [cIn] = .ok none ∧
    findPrices pm s [cIa] = .error () ∧
    findPrices pm s [cKn] = .ok none ∧
    findPrices pm s [cKa] = .error () ∧
    (∀ D : List Ent, ∀ st : RunState PriceParams,
      findPrices pm s D = .error () →
      copyOneStep priceOps false pm D st s =
        { st with stats := { st.stats with errors := st.stats.errors + 1 } }) := by
  have hv1 : priceStrat3Pred s tid cPn = .ok false := by
    unfold priceStrat3Pred
    rw [hPn]
    simp [Attr.acc]
  have hv2 : priceStrat3Pred s tid cPa = .error () := by
    unfold priceStrat3Pred
    rw [hPa]
    rfl
  have hv3 : priceStrat3Pred s tid cCn = .ok false := by
    unfold priceStrat3Pred
    rw [hCnp, hCnc, hscur]
    simp [Attr.acc, ProdRef.norm]
  have hv4 : priceStrat3Pred s tid cCa = .error () := by
    unfold priceStrat3Pred
    rw [hCap, hCac]
    simp [Attr.acc, ProdRef.norm]
  have hv5 : priceStrat3Pred s tid cUn = .ok false := by
    unfold priceStrat3Pred
    rw [hUnp, hUnc, hUnu, hscur, hsua]
    simp [Attr.acc, ProdRef.norm]
  have hv6 : priceStrat3Pred s tid cUa = .error () := by
    unfold priceStrat3Pred
    rw [hUap, hUac, hUau, hscur, hsua]
    simp [Attr.acc, ProdRef.norm]
  have hv7 : priceStrat3Pred s tid cIn = .ok false := by
    unfold priceStrat3Pred
    rw [hInp, hInc, hInu, hscur, hsua]
    simp [Attr.acc, ProdRef.norm, priceRecurringCheck, Attr.getD,
      hsrec, hInr, hsiv, hIni]
  have hv8 : priceStrat3Pred s tid cIa = .error () := by
    unfold priceStrat3Pred
    rw [hIap, hIac, hIau, hscur, hsua]
    simp [Attr.acc, ProdRef.norm, priceRecurringCheck, Attr.getD,
      hsrec, hIar, hsiv, hIai]
  have hv9 : priceStrat3Pred s tid cKn = .ok false := by
    unfold priceStrat3Pred
    rw [hKnp, hKnc, hKnu, hscur, hsua]
    simp [Attr.acc, ProdRef.norm, priceRecurringCheck, Attr.getD,
      hsrec, hKnr, hsiv, hKni, hsic, hKnk]
  have hv10 : priceStrat3Pred s tid cKa = .error () := by
    unfold priceStrat3Pred
    rw [hKap, hKac, hKau, hscur, hsua]
    simp [Attr.acc, ProdRef.norm, priceRecurringCheck, Attr.getD,
      hsrec, hKar, hsiv, hKai, hsic, hKak]
  refine ⟨?_, ?_, ?_, ?_, ?_, ?_, ?_, ?_, ?_, ?_, ?_⟩
  · rw [findPrices_singleton_strat3 pm s cPn r tid hm1 hlk hsp hmap htid, hv1]
  · rw [findPrices_singleton_strat3 pm s cPa r tid hm2 hlk hsp hmap htid, hv2]
  · rw [findPrices_singleton_strat3 pm s cCn r tid hm3 hlk hsp hmap htid, hv3]
  · rw [findPrices_singleton_strat3 pm s cCa r tid hm4 hlk hsp hmap htid, hv4]
  · rw [findPrices_singleton_strat3 pm s cUn r tid hm5 hlk hsp hmap htid, hv5]
  · rw [findPrices_singleton_strat3 pm s cUa r tid hm6 hlk hsp hmap htid, hv6]
  · rw [findPrices_singleton_strat3 pm s cIn r tid hm7 hlk hsp hmap htid, hv7]
  · rw [findPrices_singleton_strat3 pm s cIa r tid hm8 hlk hsp hmap htid, hv8]
  · rw [findPrices_singleton_strat3 pm s cKn r tid hm9 hlk hsp hmap htid, hv9]
  · rw [findPrices_singleton_strat3 pm s cKa r tid hm10 hlk hsp hmap htid, hv10]
  · intro D st hf
    have hcl : stepClass priceOps pm D s = .errored := by
      simp [stepClass, priceOps, hf]
    exact copyOneStep_eq_errored false st hcl

/-- Witness for C8 at concrete candidates, one per compared attribute and
absence mode, ending with the error-count consequence for the
missing-product candidate. -/
theorem claim_c8_amended_witness :
    findPrices [("P", "T")] c8SrcFull [c8dPn] = .ok none ∧
    findPrices [("P", "T")] c8SrcFull [c8dPa] = .error () ∧
    findPrices [("P", "T")] c8SrcFull [c8dCn] = .ok none ∧
    findPrices [("P", "T")] c8SrcFull [c8dCa] = .error () ∧
    findPrices [("P", "T")] c8SrcFull [c8dUn] = .ok none ∧
    findPrices [("P", "T")] c8SrcFull [c8dUa] = .error () ∧
    findPrices [("P", "T")] c8SrcFull [c8dIn] = .ok none ∧
    findPrices [("P", "T")] c8SrcFull [c8dIa] = .error () ∧
    findPrices [("P", "T")] c8SrcFull [c8dKn] = .ok none ∧
    findPrices [("P", "T")] c8SrcFull [c8dKa] = .error () ∧
    copyOneStep priceOps false [("P", "T")] [c8dPa]
      (initState [c8dPa] [] {}) c8SrcFull =
      { (initState [c8dPa] [] {} : RunState PriceParams) with
        stats := { (initState [c8dPa] [] {} : RunState PriceParams).stats with
          errors := (initState [c8dPa] [] {} :
            RunState PriceParams).stats.errors + 1 } } := by
  have h := claim_c8_amended [("P", "T")] c8SrcFull (.idStr "P") "T" "usd" 500
    { interval := .val "month", interval_count := .val 1 }
    c8recNulInterval c8recNoInterval c8recNulCount c8recNoCount "month" 1
    c8dPn c8dPa c8dCn c8dCa c8dUn c8dUa c8dIn c8dIa c8dKn c8dKa
    rfl rfl rfl (by decide) rfl rfl rfl rfl rfl
    rfl rfl rfl rfl rfl rfl rfl rfl rfl rfl
    rfl rfl rfl rfl rfl rfl rfl rfl rfl rfl
    rfl rfl rfl rfl rfl rfl rfl rfl rfl rfl
    rfl rfl rfl rfl rfl rfl rfl rfl rfl rfl
    rfl rfl rfl rfl
  exact ⟨h.1, h.2.1, h.2.2.1, h.2.2.2.1, h.2.2.2.2.1, h.2.2.2.2.2.1,
    h.2.2.2.2.2.2.1, h.2.2.2.2.2.2.2.1, h.2.2.2.2.2.2.2.2.1,
    h.2.2.2.2.2.2.2.2.2.1,
    h.2.2.2.2.2.2.2.2.2.2 [c8dPa] (initState [c8dPa] [] {}) h.2.1⟩

/-- Claim C9: a coupon whose `applies_to.products` contains an
unresolvable product id is still created (the step takes the create
branch, it is not skipped): the parameters build totally, every id is
resolved through the products table in order, unresolvable ids are
dropped, and when nothing resolves the `applies_to` key is absent. -/
theorem claim_c9_coupon_partial (pm : PM) (s : Ent) (ap : List String)
    (D : List Ent) (bad : String)
    (hap : s.applies_to = .val { products := .val ap })
    (hbad : bad ∈ ap) (_hbadmap : resolveOne pm bad = none)
    (hfind : findCoupons s D = none) :
    stepClass couponOps pm D s = .create (couponCreateParams pm s) ∧
    (couponCreateParams pm s).applies_to =
      (if (ap.filterMap (resolveOne pm)).isEmpty then none
       else some (ap.filterMap (resolveOne pm))) := by
  constructor
  · simp [stepClass, couponOps, hfind]
  · have hne : ap.isEmpty = false := by
      cases ap with
      | nil => exact absurd hbad (by simp)
      | cons a t => rfl
    simp [couponCreateParams, hap, hne]

/-- Witness for C9: coupon `cp9` references mapped `P` and unmapped `Q`;
the create goes through with `applies_to.products = [TP]`. -/
theorem claim_c9_coupon_partial_witness :
    stepClass couponOps [("P", "TP")] [] c9Coupon =
      .create (couponCreateParams [("P", "TP")] c9Coupon) ∧
    (couponCreateParams [("P", "TP")] c9Coupon).applies_to =
      (if ((["P", "Q"] : List String).filterMap
            (resolveOne [("P", "TP")])).isEmpty then none
       else some ((["P", "Q"] : List String).filterMap
            (resolveOne [("P", "TP")]))) :=
  claim_c9_coupon_partial [("P", "TP")] c9Coupon ["P", "Q"] [] "Q"
    rfl (by decide) rfl rfl

/-! ## Library facts about the embedded dict and search operations -/

theorem firstMatchE_some {p : Ent → Except Unit Bool} {D : List Ent} {m : Ent}
    (h : firstMatchE p D = .ok (some m)) : m ∈ D ∧ p m = .ok true := by
  induction D with
  | nil => exact absurd h (by simp [firstMatchE])
  | cons e es ih =>
    unfold firstMatchE at h
    cases hp : p e with
    | error u => rw [hp] at h; exact absurd h (by simp)
    | ok b =>
      cases b with
      | true =>
        rw [hp] at h
        simp only [Except.ok.injEq, Option.some.injEq] at h
        subst h
        exact ⟨List.mem_cons_self e es, hp⟩
      | false =>
        rw [hp] at h
        obtain ⟨hm, hpm⟩ := ih h
        exact ⟨List.mem_cons_of_mem e hm, hpm⟩

theorem firstMatchE_none {p : Ent → Except Unit Bool} {D : List Ent}
    (h : firstMatchE p D = .ok none) : ∀ e ∈ D, p e = .ok false := by
  induction D with
  | nil => intro e he; exact absurd he (by simp)
  | cons e es ih =>
    intro x hx
    unfold firstMatchE at h
    cases hp : p e with
    | error u => rw [hp] at h; exact absurd h (by simp)
    | ok b =>
      cases b with
      | true => rw [hp] at h; exact absurd h (by simp)
      | false =>
        rw [hp] at h
        rcases List.mem_cons.mp hx with rfl | hx2
        · exact hp
        · exact ih h x hx2

theorem find?_map_dset {l : PyDict} {k : String} {q : String × String}
    (v : String) (h : l.find? (fun p => p.1 == k) = some q) :
    (l.map (fun p => if p.1 == k then (k, v) else p)).find?
      (fun p => p.1 == k) = some (k, v) := by
  induction l with
  | nil => exact absurd h (by simp)
  | cons hd tl ih =>
    by_cases hk : (hd.1 == k) = true
    · simp only [List.map_cons, List.find?_cons, hk, if_pos hk]
      simp
    · rw [List.find?_cons_of_neg _ (by simp [hk])] at h
      simp only [List.map_cons, if_neg hk]
      rw [List.find?_cons_of_neg _ (by simp [hk])]
      exact ih h

theorem dget_dset_self (l : PyDict) (k v : String) :
    dget (dset l k v) k = some v := by
  unfold dset
  cases h : l.find? (fun p => p.1 == k) with
  | none =>
    simp only [h, Option.isSome_none, Bool.false_eq_true, if_false]
    unfold dget
    rw [List.find?_append, h]
    simp
  | some q =>
    simp only [h, Option.isSome_some, if_true]
    unfold dget
    rw [find?_map_dset v h]
    rfl

theorem dset_isEmpty (l : PyDict) (k v : String) :
    (dset l k v).isEmpty = false := by
  unfold dset
  cases h : l.find? (fun p => p.1 == k) with
  | none =>
    simp only [h, Option.isSome_none, Bool.false_eq_true, if_false]
    simp [List.isEmpty_iff]
  | some q =>
    simp only [h, Option.isSome_some, if_true]
    cases l with
    | nil => exact absurd h (by simp)
    | cons hd tl => simp

theorem freshId_startsSim (n : Nat) : startsSim (freshId n) = true := by
  unfold startsSim freshId
  have hdata : ("sim_" ++ toString n).data = "sim_".data ++ (toString n).data :=
    String.data_append _ _
  have htake : ("sim_" ++ toString n).take 4 = "sim_" := by
    have h4 : ("sim_" : String).data.length = 4 := rfl
    apply String.ext
    show (("sim_" ++ toString n).take 4).data = _
    rw [String.data_take, hdata, ← h4, List.take_left]
  rw [htake]
  rfl

/-- A record whose metadata carries the injected origin tag is accepted by
strategy 1. -/
theorem strat1_of_metadata {s e : Ent} (l : PyDict)
    (hmd : e.metadata = .val (dset l "prod_id" s.id)) :
    strat1 s e = true := by
  unfold strat1 mdDefault
  rw [hmd]
  simp only [Attr.getD]
  rw [dset_isEmpty, dget_dset_self]
  simp

/-- Strategy 1 depends only on the candidate's metadata. -/
theorem strat1_congr {s e e2 : Ent} (h : e2.metadata = e.metadata) :
    strat1 s e2 = strat1 s e := by
  unfold strat1 mdDefault
  rw [h]

/-- The hijack guard depends only on the candidate's metadata. -/
theorem prodNameGuard_congr {s e e2 : Ent} (h : e2.metadata = e.metadata) :
    prodNameGuard s e2 = prodNameGuard s e := by
  unfold prodNameGuard mdDefault
  rw [h]

/-! ## Bookkeeping of the per-record loop -/

theorem copyOneStep_errors_eq {P : Type} (ops : KindOps P) (pm : PM)
    (D : List Ent) (st : RunState P) (s : Ent) :
    (copyOneStep ops false pm D st s).stats.errors =
      (if (stepClass ops pm D s).tag = .errored then st.stats.errors + 1
       else st.stats.errors) := by
  cases h : stepClass ops pm D s with
  | errored => rw [copyOneStep_eq_errored false st h]; simp [StepClass.tag]
  | noop m => rw [copyOneStep_eq_noop false st h]; simp [StepClass.tag]
  | upd m p => rw [copyOneStep_eq_upd st h]; simp [StepClass.tag]
  | create p => rw [copyOneStep_eq_create st h]; simp [StepClass.tag]

theorem copyOneStep_created_eq {P : Type} (ops : KindOps P) (pm : PM)
    (D : List Ent) (st : RunState P) (s : Ent) :
    (copyOneStep ops false pm D st s).stats.created =
      (if (stepClass ops pm D s).tag = .create then st.stats.created + 1
       else st.stats.created) := by
  cases h : stepClass ops pm D s with
  | errored => rw [copyOneStep_eq_errored false st h]; simp [StepClass.tag]
  | noop m => rw [copyOneStep_eq_noop false st h]; simp [StepClass.tag]
  | upd m p => rw [copyOneStep_eq_upd st h]; simp [StepClass.tag]
  | create p => rw [copyOneStep_eq_create st h]; simp [StepClass.tag]

theorem runK_errors_mono {P : Type} (ops : KindOps P) (pm : PM)
    (S D : List Ent) (st0 : RunState P) :
    st0.stats.errors ≤ (runK ops false pm S D st0).stats.errors := by
  induction S generalizing st0 with
  | nil => exact Nat.le_refl _
  | cons a T ih =>
    have h1 : st0.stats.errors ≤ (copyOneStep ops false pm D st0 a).stats.errors := by
      rw [copyOneStep_errors_eq]
      split <;> omega
    exact Nat.le_trans h1 (ih (copyOneStep ops false pm D st0 a))

theorem runK_no_errored {P : Type} (ops : KindOps P) (pm : PM)
    {S D : List Ent} {st0 : RunState P}
    (h : (runK ops false pm S D st0).stats.errors = st0.stats.errors) :
    ∀ s ∈ S, (stepClass ops pm D s).tag ≠ .errored := by
  induction S generalizing st0 with
  | nil => intro s hs; exact absurd hs (by simp)
  | cons a T ih =>
    intro s hs
    have hrun : runK ops false pm (a :: T) D st0 =
        runK ops false pm T D (copyOneStep ops false pm D st0 a) := rfl
    rw [hrun] at h
    have hmono := runK_errors_mono ops pm T D (copyOneStep ops false pm D st0 a)
    have hstep := copyOneStep_errors_eq ops pm D st0 a
    rcases List.mem_cons.mp hs with rfl | hs2
    · intro htag
      rw [if_pos htag] at hstep
      omega
    · have hstep_eq : (copyOneStep ops false pm D st0 a).stats.errors =
          st0.stats.errors := by
        by_cases htag : (stepClass ops pm D a).tag = .errored
        · rw [if_pos htag] at hstep; omega
        · rw [if_neg htag] at hstep; omega
      exact ih (h.trans hstep_eq.symm) s hs2

theorem runK_created_const {P : Type} (ops : KindOps P) (pm : PM)
    {S D : List Ent} (st0 : RunState P)
    (h : ∀ s ∈ S, (stepClass ops pm D s).tag ≠ .create) :
    (runK ops false pm S D st0).stats.created = st0.stats.created := by
  induction S generalizing st0 with
  | nil => rfl
  | cons a T ih =>
    have hrun : runK ops false pm (a :: T) D st0 =
        runK ops false pm T D (copyOneStep ops false pm D st0 a) := rfl
    rw [hrun, ih _ (fun s hs => h s (List.mem_cons_of_mem a hs))]
    rw [copyOneStep_created_eq, if_neg (h a (List.mem_cons_self a T))]

theorem copyOneStep_env_mem {P : Type} {ops : KindOps P} {pm : PM}
    {D : List Ent} {st : RunState P} {s e : Ent}
    (he : e ∈ st.env)
    (hne : ∀ m p, stepClass ops pm D s = .upd m p → m.id ≠ e.id) :
    e ∈ (copyOneStep ops false pm D st s).env := by
  cases h : stepClass ops pm D s with
  | errored => rw [copyOneStep_eq_errored false st h]; exact he
  | noop m => rw [copyOneStep_eq_noop false st h]; exact he
  | upd m p =>
    rw [copyOneStep_eq_upd st h]
    have hid : (e.id == m.id) = false := by
      have := hne m p h
      simp only [beq_eq_false_iff_ne, ne_eq]
      intro hcontra
      exact this hcontra.symm
    have heq : (fun x => if x.id == m.id then ops.applyUpdate p x else x) e = e := by
      simp [hid]
    have h2 := List.mem_map_of_mem
      (fun x => if x.id == m.id then ops.applyUpdate p x else x) he
    rw [heq] at h2
    exact h2
  | create p =>
    rw [copyOneStep_eq_create st h]
    exact List.mem_append_left _ he

theorem runK_env_mem {P : Type} {ops : KindOps P} {pm : PM}
    {S D : List Ent} {st0 : RunState P} {e : Ent}
    (he : e ∈ st0.env)
    (hne : ∀ s ∈ S, ∀ m p, stepClass ops pm D s = .upd m p → m.id ≠ e.id) :
    e ∈ (runK ops false pm S D st0).env := by
  induction S generalizing st0 with
  | nil => exact he
  | cons a T ih =>
    exact ih (copyOneStep_env_mem he (hne a (List.mem_cons_self a T)))
      (fun s hs => hne s (List.mem_cons_of_mem a hs))

theorem copyOneStep_env_upd_mem {P : Type} {ops : KindOps P} {pm : PM}
    {D : List Ent} {st : RunState P} {s m : Ent} {p : P}
    (h : stepClass ops pm D s = .upd m p) (hm : m ∈ st.env) :
    ops.applyUpdate p m ∈ (copyOneStep ops false pm D st s).env := by
  rw [copyOneStep_eq_upd st h]
  have heq : (fun x => if x.id == m.id then ops.applyUpdate p x else x) m =
      ops.applyUpdate p m := by simp
  have h2 := List.mem_map_of_mem
    (fun x => if x.id == m.id then ops.applyUpdate p x else x) hm
  rw [heq] at h2
  exact h2

theorem copyOneStep_env_create_mem {P : Type} {ops : KindOps P} {pm : PM}
    {D : List Ent} {st : RunState P} {s : Ent} {p : P}
    (h : stepClass ops pm D s = .create p) :
    ops.applyCreate (freshId st.fresh) (ops.inject p s.id) ∈
      (copyOneStep ops false pm D st s).env := by
  rw [copyOneStep_eq_create st h]
  exact List.mem_append_right _ (by simp)

theorem runK_env_upd_mem {P : Type} {ops : KindOps P} {pm : PM}
    {D : List Ent} {st0 : RunState P} {L R : List Ent} {s m : Ent} {p : P}
    (h : stepClass ops pm D s = .upd m p) (hm : m ∈ st0.env)
    (hid : ∀ q e, (ops.applyUpdate q e).id = e.id)
    (hL : ∀ x ∈ L, ∀ m2 p2, stepClass ops pm D x = .upd m2 p2 → m2.id ≠ m.id)
    (hR : ∀ x ∈ R, ∀ m2 p2, stepClass ops pm D x = .upd m2 p2 → m2.id ≠ m.id) :
    ops.applyUpdate p m ∈ (runK ops false pm (L ++ s :: R) D st0).env := by
  have hsplit : runK ops false pm (L ++ s :: R) D st0 =
      runK ops false pm R D
        (copyOneStep ops false pm D (runK ops false pm L D st0) s) := by
    unfold runK
    rw [List.foldl_append]
    rfl
  rw [hsplit]
  have hmL : m ∈ (runK ops false pm L D st0).env := runK_env_mem hm hL
  have hstep := copyOneStep_env_upd_mem h hmL
  exact runK_env_mem hstep
    (fun x hx m2 p2 hx2 => by rw [hid p m]; exact hR x hx m2 p2 hx2)

theorem runK_env_create_mem {P : Type} {ops : KindOps P} {pm : PM}
    {D : List Ent} {st0 : RunState P} {L R : List Ent} {s : Ent} {p : P}
    (h : stepClass ops pm D s = .create p)
    (hR : ∀ x ∈ R, ∀ m2 p2, stepClass ops pm D x = .upd m2 p2 →
      m2.id ≠ (ops.applyCreate (freshId ((runK ops false pm L D st0).fresh))
        (ops.inject p s.id)).id) :
    ops.applyCreate (freshId ((runK ops false pm L D st0).fresh))
      (ops.inject p s.id) ∈ (runK ops false pm (L ++ s :: R) D st0).env := by
  have hsplit : runK ops false pm (L ++ s :: R) D st0 =
      runK ops false pm R D
        (copyOneStep ops false pm D (runK ops false pm L D st0) s) := by
    unfold runK
    rw [List.foldl_append]
    rfl
  rw [hsplit]
  exact runK_env_mem (copyOneStep_env_create_mem h) hR

/-! ## Per-kind matching facts -/

theorem attrIfHas_of_acc {α : Type} {a : Attr α} {v : Option α}
    (h : a.acc = .ok v) : attrIfHas a = some v := by
  cases a with
  | absent => exact absurd h (by simp [Attr.acc])
  | nul => simp only [Attr.acc, Except.ok.injEq] at h; simp [attrIfHas, ← h]
  | val x => simp only [Attr.acc, Except.ok.injEq] at h; simp [attrIfHas, ← h]

theorem ofPy_acc {α : Type} (v : Option α) : (Attr.ofPy v).acc = .ok v := by
  cases v <;> rfl

theorem updAttr_some {α : Type} (old : Attr α) (v : Option α) :
    updAttr old (some v) = Attr.ofPy v := rfl

theorem prodStrat2_ok_true_inv {s e : Ent} (h : prodStrat2 s e = .ok true) :
    ∃ v, e.name.acc = .ok v ∧ s.name.acc = .ok v ∧ prodNameGuard s e = true := by
  unfold prodStrat2 at h
  split at h
  · exact absurd h (by simp)
  · next tn heq =>
    split at h
    · exact absurd h (by simp)
    · next pn heq2 =>
      simp only [Except.ok.injEq, Bool.and_eq_true, beq_iff_eq] at h
      exact ⟨pn, by rw [heq, h.1], heq2, h.2⟩

theorem findProducts_some {s : Ent} {D : List Ent} {m : Ent}
    (h : findProducts s D = .ok (some m)) : m ∈ D ∧ acceptsProducts s m := by
  unfold findProducts at h
  cases hf : D.find? (strat1 s) with
  | some m2 =>
    rw [hf] at h
    simp only [Except.ok.injEq, Option.some.injEq] at h
    subst h
    exact ⟨List.mem_of_find?_eq_some hf, Or.inl (List.find?_some hf)⟩
  | none =>
    rw [hf] at h
    obtain ⟨hm, hp⟩ := firstMatchE_some h
    exact ⟨hm, Or.inr hp⟩

theorem findProducts_none {s : Ent} {D : List Ent} {e : Ent}
    (h : findProducts s D = .ok none) (he : e ∈ D)
    (ha : acceptsProducts s e) : False := by
  unfold findProducts at h
  cases hf : D.find? (strat1 s) with
  | some m2 => rw [hf] at h; exact absurd h (by simp)
  | none =>
    rw [hf] at h
    cases ha with
    | inl h1 => exact (List.find?_eq_none.mp hf e he) h1
    | inr h2 =>
      have := firstMatchE_none h e he
      rw [h2] at this
      exact absurd this (by simp)

theorem acceptsProducts_update {s m : Ent} (ha : acceptsProducts s m) :
    acceptsProducts s (applyUpdateProduct (productUpdateParams s) m) := by
  cases hmt : attrIfTruthy (fun l => !l.isEmpty) s.metadata with
  | some l0 =>
    left
    exact strat1_of_metadata l0
      (by simp [applyUpdateProduct, productUpdateParams, hmt])
  | none =>
    have hmeq : (applyUpdateProduct (productUpdateParams s) m).metadata =
        m.metadata := by
      simp [applyUpdateProduct, productUpdateParams, hmt]
    cases ha with
    | inl h1 => exact Or.inl ((strat1_congr hmeq).trans h1)
    | inr h2 =>
      right
      obtain ⟨v, hea, hsa, hg⟩ := prodStrat2_ok_true_inv h2
      have hname : (applyUpdateProduct (productUpdateParams s) m).name =
          Attr.ofPy v := by
        simp [applyUpdateProduct, productUpdateParams, attrIfHas_of_acc hsa,
          updAttr_some]
      unfold prodStrat2
      rw [hname, ofPy_acc, hsa, prodNameGuard_congr hmeq, hg]
      simp

theorem taxStrat2_ok_true_inv {s e : Ent} (h : taxStrat2 s e = .ok true) :
    ∃ tdn pdn a b, e.display_name.acc = .ok tdn ∧ s.display_name.acc = .ok pdn ∧
      e.percentage.acc = .ok (some a) ∧ s.percentage.acc = .ok (some b) ∧
      (tdn == pdn) = true ∧ decide (|a - b| < (1 : Rat)/100) = true ∧
      (s.jurisdiction.getD none == e.jurisdiction.getD none) = true := by
  unfold taxStrat2 at h
  split at h
  · exact absurd h (by simp)
  · next tdn h1 =>
    split at h
    · exact absurd h (by simp)
    · next pdn h2 =>
      split at h
      · exact absurd h (by simp)
      · next tp h3 =>
        split at h
        · exact absurd h (by simp)
        · next pp h4 =>
          split at h
          · next a b =>
            simp only [Except.ok.injEq, Bool.and_eq_true] at h
            exact ⟨tdn, pdn, a, b, h1, h2, h3, h4, h.1.1, h.1.2, h.2⟩
          · exact absurd h (by simp)

theorem findTaxRates_some {s : Ent} {D : List Ent} {m : Ent}
    (h : findTaxRates s D = .ok (some m)) : m ∈ D ∧ acceptsTaxRates s m := by
  unfold findTaxRates at h
  cases hf : D.find? (strat1 s) with
  | some m2 =>
    rw [hf] at h
    simp only [Except.ok.injEq, Option.some.injEq] at h
    subst h
    exact ⟨List.mem_of_find?_eq_some hf, Or.inl (List.find?_some hf)⟩
  | none =>
    rw [hf] at h
    obtain ⟨hm, hp⟩ := firstMatchE_some h
    exact ⟨hm, Or.inr hp⟩

theorem findTaxRates_none {s : Ent} {D : List Ent} {e : Ent}
    (h : findTaxRates s D = .ok none) (he : e ∈ D)
    (ha : acceptsTaxRates s e) : False := by
  unfold findTaxRates at h
  cases hf : D.find? (strat1 s) with
  | some m2 => rw [hf] at h; exact absurd h (by simp)
  | none =>
    rw [hf] at h
    cases ha with
    | inl h1 => exact (List.find?_eq_none.mp hf e he) h1
    | inr h2 =>
      have := firstMatchE_none h e he
      rw [h2] at this
      exact absurd this (by simp)

theorem acceptsTaxRates_update {s m : Ent} (ha : acceptsTaxRates s m) :
    acceptsTaxRates s (applyUpdateTaxRate (taxRateUpdateParams s) m) := by
  cases hmt : attrIfTruthy (fun l => !l.isEmpty) s.metadata with
  | some l0 =>
    left
    exact strat1_of_metadata l0
      (by simp [applyUpdateTaxRate, taxRateUpdateParams, hmt])
  | none =>
    have hmeq : (applyUpdateTaxRate (taxRateUpdateParams s) m).metadata =
        m.metadata := by
      simp [applyUpdateTaxRate, taxRateUpdateParams, hmt]
    cases ha with
    | inl h1 => exact Or.inl ((strat1_congr hmeq).trans h1)
    | inr h2 =>
      right
      obtain ⟨tdn, pdn, a, b, hea, hsa, hpa, hpb, hdn, hdec, hjur⟩ :=
        taxStrat2_ok_true_inv h2
      unfold taxStrat2
      simp only [applyUpdateTaxRate, taxRateUpdateParams,
        attrIfHas_of_acc hsa, updAttr_some, ofPy_acc, hsa, hpa, hpb, hdec, hjur]
      simp

theorem findCoupons_some {s : Ent} {D : List Ent} {m : Ent}
    (h : findCoupons s D = some m) : m ∈ D ∧ acceptsCoupons s m := by
  unfold findCoupons at h
  cases h1 : D.find? (strat1 s) with
  | some m2 =>
    simp only [h1, Option.some.injEq] at h
    subst h
    exact ⟨List.mem_of_find?_eq_some h1, Or.inl (List.find?_some h1)⟩
  | none =>
    simp only [h1] at h
    cases h2 : D.find? (fun e => e.id == "test_" ++ s.id) with
    | some m2 =>
      simp only [h2, Option.some.injEq] at h
      have hpred := List.find?_some h2
      rw [← h]
      exact ⟨List.mem_of_find?_eq_some h2, Or.inr (Or.inl (by simpa using hpred))⟩
    | none =>
      simp only [h2] at h
      cases hn : s.name with
      | absent => simp only [hn] at h; exact absurd h (by simp)
      | nul => simp only [hn] at h; exact absurd h (by simp)
      | val sn =>
        simp only [hn] at h
        by_cases hT : strT sn = true
        · rw [if_pos hT] at h
          exact ⟨List.mem_of_find?_eq_some h,
            Or.inr (Or.inr ⟨sn, hn, hT, List.find?_some h⟩)⟩
        · rw [if_neg hT] at h; exact absurd h (by simp)

theorem findCoupons_none {s : Ent} {D : List Ent} {e : Ent}
    (h : findCoupons s D = none) (he : e ∈ D)
    (ha : acceptsCoupons s e) : False := by
  unfold findCoupons at h
  cases h1 : D.find? (strat1 s) with
  | some m2 => simp only [h1] at h; exact absurd h (by simp)
  | none =>
    simp only [h1] at h
    cases h2 : D.find? (fun x => x.id == "test_" ++ s.id) with
    | some m2 => simp only [h2] at h; exact absurd h (by simp)
    | none =>
      simp only [h2] at h
      rcases ha with ha1 | ha2 | ⟨sn, hname, hT, hpred⟩
      · exact (List.find?_eq_none.mp h1 e he) ha1
      · have := List.find?_eq_none.mp h2 e he
        exact this ha2
      · simp only [hname, if_pos hT] at h
        exact (List.find?_eq_none.mp h e he) hpred

theorem findCoupons_none_id {s : Ent} {D : List Ent}
    (h : findCoupons s D = none) :
    ∀ e ∈ D, (e.id == "test_" ++ s.id) = false := by
  intro e he
  unfold findCoupons at h
  cases h1 : D.find? (strat1 s) with
  | some m2 => simp only [h1] at h; exact absurd h (by simp)
  | none =>
    simp only [h1] at h
    cases h2 : D.find? (fun x => x.id == "test_" ++ s.id) with
    | some m2 => simp only [h2] at h; exact absurd h (by simp)
    | none =>
      have := List.find?_eq_none.mp h2 e he
      simpa using this

theorem acceptsCoupons_update {s m : Ent} (ha : acceptsCoupons s m) :
    acceptsCoupons s (applyUpdateCoupon (couponUpdateParams s) m) := by
  cases hmt : attrIfTruthy (fun l => !l.isEmpty) s.metadata with
  | some l0 =>
    left
    exact strat1_of_metadata l0
      (by simp [applyUpdateCoupon, couponUpdateParams, hmt])
  | none =>
    have hmeq : (applyUpdateCoupon (couponUpdateParams s) m).metadata =
        m.metadata := by
      simp [applyUpdateCoupon, couponUpdateParams, hmt]
    rcases ha with ha1 | ha2 | ⟨sn, hname, hT, hpred⟩
    · exact Or.inl ((strat1_congr hmeq).trans ha1)
    · exact Or.inr (Or.inl ha2)
    · refine Or.inr (Or.inr ⟨sn, hname, hT, ?_⟩)
      have hn2 : (applyUpdateCoupon (couponUpdateParams s) m).name =
          Attr.val sn := by
        simp [applyUpdateCoupon, couponUpdateParams, hname, attrIfHas,
          updAttr_some, Attr.ofPy]
      unfold couponStrat3 at hpred ⊢
      rw [hn2, prodNameGuard_congr hmeq]
      simp only [Bool.and_eq_true] at hpred
      simp [Attr.hasA, Attr.getD, hpred.2]

theorem priceStage3_some {pm : PM} {s : Ent} {D : List Ent} {m : Ent}
    (h : priceStage3 pm s D = .ok (some m)) :
    m ∈ D ∧ ∃ r tid, s.product.acc = .ok (some r) ∧ dget pm r.norm = some tid ∧
      tid ≠ "" ∧ priceStrat3Pred s tid m = .ok true := by
  unfold priceStage3 at h
  split at h
  · exact absurd h (by simp)
  · next ref h1 =>
    split at h
    · exact absurd h (by simp)
    · next t h2 =>
      split at h
      · exact absurd h (by simp)
      · next ht =>
        obtain ⟨hm, hp⟩ := firstMatchE_some h
        cases ref with
        | none => exact absurd h2 (by simp)
        | some r => exact ⟨hm, r, t, h1, h2, ht, hp⟩

theorem findPrices_some {pm : PM} {s : Ent} {D : List Ent} {m : Ent}
    (h : findPrices pm s D = .ok (some m)) : m ∈ D ∧ acceptsPrices pm s m := by
  unfold findPrices at h
  cases h1 : D.find? (strat1 s) with
  | some m2 =>
    rw [h1] at h
    simp only [Except.ok.injEq, Option.some.injEq] at h
    subst h
    exact ⟨List.mem_of_find?_eq_some h1, Or.inl (List.find?_some h1)⟩
  | none =>
    rw [h1] at h
    cases hsm : (match s.lookup_key with
                 | Attr.val sl => if strT sl = true then D.find? (priceStrat2 sl) else none
                 | _ => none) with
    | some m2 =>
      rw [hsm] at h
      simp only [Except.ok.injEq, Option.some.injEq] at h
      subst h
      cases hk : s.lookup_key with
      | absent => simp only [hk] at hsm; exact absurd hsm (by simp)
      | nul => simp only [hk] at hsm; exact absurd hsm (by simp)
      | val sl =>
        simp only [hk] at hsm
        by_cases hT : strT sl = true
        · rw [if_pos hT] at hsm
          exact ⟨List.mem_of_find?_eq_some hsm,
            Or.inr (Or.inl ⟨sl, hk, hT, List.find?_some hsm⟩)⟩
        · rw [if_neg hT] at hsm; exact absurd hsm (by simp)
    | none =>
      rw [hsm] at h
      obtain ⟨hm, r, tid, hacc, hmapr, htid, hpred⟩ := priceStage3_some h
      exact ⟨hm, Or.inr (Or.inr ⟨r, tid, hacc, hmapr, htid, hpred⟩)⟩

theorem findPrices_none {pm : PM} {s : Ent} {D : List Ent} {e : Ent}
    (h : findPrices pm s D = .ok none) (he : e ∈ D)
    (ha : acceptsPrices pm s e) : False := by
  unfold findPrices at h
  cases h1 : D.find? (strat1 s) with
  | some m2 => rw [h1] at h; exact absurd h (by simp)
  | none =>
    rw [h1] at h
    cases hsm : (match s.lookup_key with
                 | Attr.val sl => if strT sl = true then D.find? (priceStrat2 sl) else none
                 | _ => none) with
    | some m2 => rw [hsm] at h; exact absurd h (by simp)
    | none =>
      rw [hsm] at h
      rcases ha with ha1 | ⟨sl, hk, hT, hpred⟩ | ⟨r, tid, hacc, hmapr, htid, hpred⟩
      · exact (List.find?_eq_none.mp h1 e he) ha1
      · simp only [hk, if_pos hT] at hsm
        exact (List.find?_eq_none.mp hsm e he) hpred
      · unfold priceStage3 at h
        simp only [hacc] at h
        simp only [hmapr] at h
        rw [if_neg htid] at h
        have := firstMatchE_none h e he
        rw [hpred] at this
        exact absurd this (by simp)

/-! ## The generic second-run analysis

`run2_no_create` takes the per-kind matching facts as hypotheses: what the
kind's matcher accepts, that a matched-and-updated or created record stays
acceptable, and that created records are never clobbered by later updates
of destination records. -/

theorem StepClass.tag_eq_create {P : Type} {c : StepClass P}
    (h : c.tag = .create) : ∃ p, c = .create p := by
  cases c with
  | errored => exact absurd h (by simp [StepClass.tag])
  | noop m => exact absurd h (by simp [StepClass.tag])
  | upd m p => exact absurd h (by simp [StepClass.tag])
  | create p => exact ⟨p, rfl⟩

theorem run2_no_create {P : Type} (ops : KindOps P)
    (accepts : PM → Ent → Ent → Prop)
    (strat1_accept : ∀ pm s e, strat1 s e = true → accepts pm s e)
    (find_some : ∀ pm s D m, ops.find pm s D = .ok (some m) →
      m ∈ D ∧ accepts pm s m)
    (find_none : ∀ pm s D e, ops.find pm s D = .ok none → e ∈ D →
      accepts pm s e → False)
    (preserve : ∀ pm s m, ops.canUpdate = true → accepts pm s m →
      accepts pm s (ops.applyUpdate (ops.updateParams s) m))
    (upd_id : ∀ p e, (ops.applyUpdate p e).id = e.id)
    (created_strat1 : ∀ pm s p nid, ops.createParams pm s = .ok p →
      strat1 s (ops.applyCreate nid (ops.inject p s.id)) = true)
    (created_fresh : ∀ pm s D p n m2, ops.createParams pm s = .ok p →
      ops.find pm s D = .ok none → (∀ e ∈ D, startsSim e.id = false) →
      m2 ∈ D → m2.id ≠ (ops.applyCreate (freshId n) (ops.inject p s.id)).id)
    (pm : PM) (S D : List Ent)
    (hD : ∀ e ∈ D, startsSim e.id = false)
    (hInj : (S.map (touchOf ops pm D)).Pairwise
      (fun a b => a.isSome = true → b.isSome = true → a ≠ b))
    (h1 : (runK ops false pm S D (initState D [] {})).stats.errors = 0) :
    (∀ s ∈ S, (stepClass ops pm
      ((runK ops false pm S D (initState D [] {})).env) s).tag ≠ .create) ∧
    (∀ s ∈ S, (stepClass ops pm D s).tag = .create →
      (((runK ops false pm S D (initState D [] {})).env).find?
        (strat1 s)).isSome = true) := by
  have hNoErr : ∀ s ∈ S, (stepClass ops pm D s).tag ≠ .errored :=
    runK_no_errored ops pm h1
  have key : ∀ s ∈ S,
      (∃ e, e ∈ (runK ops false pm S D (initState D [] {})).env ∧
        accepts pm s e) ∧
      ((stepClass ops pm D s).tag = .create →
        ∃ e, e ∈ (runK ops false pm S D (initState D [] {})).env ∧
          strat1 s e = true) := by
    intro s hs
    cases hc : stepClass ops pm D s with
    | errored =>
      exact absurd (by rw [hc]; rfl) (hNoErr s hs)
    | noop m =>
      obtain ⟨hfind, hcu⟩ := stepClass_noop_inv hc
      obtain ⟨hmem, hacc⟩ := find_some pm s D m hfind
      have hnoupd : ∀ x ∈ S, ∀ m2 p2, stepClass ops pm D x = .upd m2 p2 →
          m2.id ≠ m.id := by
        intro x hx m2 p2 hx2
        have hcu2 := (stepClass_upd_inv hx2).2.2
        rw [hcu] at hcu2
        exact absurd hcu2 (by simp)
      have hmE : m ∈ (runK ops false pm S D (initState D [] {})).env :=
        runK_env_mem (show m ∈ (initState D [] {} : RunState P).env from hmem)
          hnoupd
      refine ⟨⟨m, hmE, hacc⟩, ?_⟩
      intro htag
      exact absurd htag (by simp [StepClass.tag])
    | upd m p =>
      obtain ⟨hfind, hp, hcu⟩ := stepClass_upd_inv hc
      obtain ⟨hmem, hacc⟩ := find_some pm s D m hfind
      obtain ⟨L, R, hS⟩ := List.append_of_mem hs
      subst hS
      rw [List.pairwise_map, List.pairwise_append] at hInj
      obtain ⟨hPL, hPsr, hcross⟩ := hInj
      rw [List.pairwise_cons] at hPsr
      obtain ⟨hsr, hPR⟩ := hPsr
      have hL : ∀ x ∈ L, ∀ m2 p2, stepClass ops pm D x = .upd m2 p2 →
          m2.id ≠ m.id := by
        intro x hx m2 p2 hx2 heqid
        have hrel := hcross x hx s (List.mem_cons_self s R)
        exact hrel (by simp [touchOf, hx2]) (by simp [touchOf, hc])
          (by simp [touchOf, hx2, hc, heqid])
      have hR : ∀ x ∈ R, ∀ m2 p2, stepClass ops pm D x = .upd m2 p2 →
          m2.id ≠ m.id := by
        intro x hx m2 p2 hx2 heqid
        have hrel := hsr x hx
        exact hrel (by simp [touchOf, hc]) (by simp [touchOf, hx2])
          (by simp [touchOf, hx2, hc, heqid])
      have hm2E : ops.applyUpdate p m ∈
          (runK ops false pm (L ++ s :: R) D (initState D [] {})).env :=
        runK_env_upd_mem hc
          (show m ∈ (initState D [] {} : RunState P).env from hmem)
          upd_id hL hR
      refine ⟨⟨ops.applyUpdate p m, hm2E, ?_⟩, ?_⟩
      · rw [hp]
        exact preserve pm s m hcu hacc
      · intro htag
        exact absurd htag (by simp [StepClass.tag])
    | create p =>
      obtain ⟨hfind, hcp⟩ := stepClass_create_inv hc
      obtain ⟨L, R, hS⟩ := List.append_of_mem hs
      subst hS
      have hRne : ∀ x ∈ R, ∀ m2 p2, stepClass ops pm D x = .upd m2 p2 →
          m2.id ≠ (ops.applyCreate
            (freshId ((runK ops false pm L D (initState D [] {})).fresh))
            (ops.inject p s.id)).id := by
        intro x hx m2 p2 hx2
        have hm2 : m2 ∈ D := (find_some pm x D m2 (stepClass_upd_inv hx2).1).1
        exact created_fresh pm s D p _ m2 hcp hfind hD hm2
      have hcE := runK_env_create_mem hc hRne
      have hstrat1 := created_strat1 pm s p
        (freshId ((runK ops false pm L D (initState D [] {})).fresh)) hcp
      exact ⟨⟨_, hcE, strat1_accept pm s _ hstrat1⟩, fun _ => ⟨_, hcE, hstrat1⟩⟩
  constructor
  · intro s hs htag
    obtain ⟨p2, hp2⟩ := StepClass.tag_eq_create htag
    obtain ⟨hfind2, _⟩ := stepClass_create_inv hp2
    obtain ⟨e, heE, hacc⟩ := (key s hs).1
    exact find_none pm s _ e hfind2 heE hacc
  · intro s hs htag
    obtain ⟨e, heE, hstrat1⟩ := (key s hs).2 htag
    exact List.find?_isSome.mpr ⟨e, heE, hstrat1⟩

/-- Claim C1 (failing input): two source products named `N` — the first
with metadata, the second without — against a destination that already
holds one product named `N`.  Both first-run records match that same
destination record and update it (run 1: 0 created, 2 updated, 0 errors,
so every premise of the claim holds), but the first update tags the record
with `prod_id = p1`, so on the second run the hijack guard rejects it for
`p2` and `p2` is created: the second run's created counter is 1, not 0. -/
theorem claim_c1_counterexample :
    cxRun1.stats = { created := 0, updated := 2, errors := 0 } ∧
    cxRun2.stats.created = 1 := by
  exact ⟨rfl, rfl⟩

/-- Claim C1 as amended: for every resource kind, if the first
(non-dry-run) run succeeds on every record (`errors = 0`), destination ids
do not collide with server-assigned fresh ids, and no two first-run
records update the same destination record (the correspondence-table
invariant of the data model), then a second run over the same sources and
the destination store the first run left creates nothing, and every
record the first run created is matched on the second run by the metadata
prod_id strategy.  (Records that matched pre-existing destination records
may be re-matched by a later strategy instead.) -/
theorem claim_c1_amended (k : RKind) (pm : PM) (S D : List Ent)
    (hD : ∀ e ∈ D, startsSim e.id = false)
    (hInj : (S.map (kindTouch k pm D)).Pairwise
      (fun a b => a.isSome = true → b.isSome = true → a ≠ b))
    (h1 : (kindRunOut k pm S D).2.errors = 0) :
    (kindRunOut k pm S ((kindRunOut k pm S D).1)).2.created = 0 ∧
    ∀ s ∈ S, kindTag k pm D s = .create →
      (((kindRunOut k pm S D).1).find? (strat1 s)).isSome = true := by
  cases k with
  | products =>
    obtain ⟨hnc, hpr⟩ := run2_no_create productOps
      (fun _pm s e => acceptsProducts s e)
      (fun _pm _s _e h => Or.inl h)
      (fun _pm _s _D _m h => findProducts_some h)
      (fun _pm _s _D _e h he ha => findProducts_none h he ha)
      (fun _pm s m _ ha => acceptsProducts_update ha)
      (fun _p _e => rfl)
      (fun _pm s p nid _ =>
        strat1_of_metadata (p.metadata.getD []) rfl)
      (fun _pm s D2 p n m2 _ _ hDf hm2 => by
        have hid : (productOps.applyCreate (freshId n)
            (productOps.inject p s.id)).id = freshId n := rfl
        rw [hid]
        intro heq
        have h2 := hDf m2 hm2
        rw [heq, freshId_startsSim] at h2
        exact absurd h2 (by simp))
      pm S D hD hInj h1
    exact ⟨runK_created_const productOps pm (initState _ [] {}) hnc, hpr⟩
  | tax_rates =>
    obtain ⟨hnc, hpr⟩ := run2_no_create taxRateOps
      (fun _pm s e => acceptsTaxRates s e)
      (fun _pm _s _e h => Or.inl h)
      (fun _pm _s _D _m h => findTaxRates_some h)
      (fun _pm _s _D _e h he ha => findTaxRates_none h he ha)
      (fun _pm s m _ ha => acceptsTaxRates_update ha)
      (fun _p _e => rfl)
      (fun _pm s p nid _ =>
        strat1_of_metadata (p.metadata.getD []) rfl)
      (fun _pm s D2 p n m2 _ _ hDf hm2 => by
        have hid : (taxRateOps.applyCreate (freshId n)
            (taxRateOps.inject p s.id)).id = freshId n := rfl
        rw [hid]
        intro heq
        have h2 := hDf m2 hm2
        rw [heq, freshId_startsSim] at h2
        exact absurd h2 (by simp))
      pm S D hD hInj h1
    exact ⟨runK_created_const taxRateOps pm (initState _ [] {}) hnc, hpr⟩
  | prices =>
    obtain ⟨hnc, hpr⟩ := run2_no_create priceOps
      (fun pm2 s e => acceptsPrices pm2 s e)
      (fun _pm _s _e h => Or.inl h)
      (fun _pm _s _D _m h => findPrices_some h)
      (fun _pm _s _D _e h he ha => findPrices_none h he ha)
      (fun _pm _s _m hcu _ha => absurd hcu (by decide))
      (fun _p _e => rfl)
      (fun _pm s p nid _ =>
        strat1_of_metadata (p.metadata.getD []) rfl)
      (fun _pm s D2 p n m2 _ _ hDf hm2 => by
        have hid : (priceOps.applyCreate (freshId n)
            (priceOps.inject p s.id)).id = freshId n := rfl
        rw [hid]
        intro heq
        have h2 := hDf m2 hm2
        rw [heq, freshId_startsSim] at h2
        exact absurd h2 (by simp))
      pm S D hD hInj h1
    exact ⟨runK_created_const priceOps pm (initState _ [] {}) hnc, hpr⟩
  | coupons =>
    obtain ⟨hnc, hpr⟩ := run2_no_create couponOps
      (fun _pm s e => acceptsCoupons s e)
      (fun _pm _s _e h => Or.inl h)
      (fun _pm _s _D _m h => findCoupons_some (Except.ok.inj h))
      (fun _pm _s _D _e h he ha => findCoupons_none (Except.ok.inj h) he ha)
      (fun _pm s m _ ha => acceptsCoupons_update ha)
      (fun _p _e => rfl)
      (fun _pm s p nid _ =>
        strat1_of_metadata (p.metadata.getD []) rfl)
      (fun pm2 s D2 p n m2 hcp hfind hDf hm2 => by
        intro heq
        have hpid : p.id = (if strT s.id then some ("test_" ++ s.id) else none) := by
          have : couponCreateParams pm2 s = p := Except.ok.inj hcp
          rw [← this]
          rfl
        by_cases hT : strT s.id = true
        · have hid : (couponOps.applyCreate (freshId n)
              (couponOps.inject p s.id)).id = "test_" ++ s.id := by
            show (couponOps.inject p s.id).id.getD (freshId n) = _
            show p.id.getD (freshId n) = _
            rw [hpid, if_pos hT]
            rfl
          rw [hid] at heq
          have hnone : findCoupons s D2 = none := Except.ok.inj hfind
          have := findCoupons_none_id hnone m2 hm2
          rw [heq] at this
          simp at this
        · have hid : (couponOps.applyCreate (freshId n)
              (couponOps.inject p s.id)).id = freshId n := by
            show (couponOps.inject p s.id).id.getD (freshId n) = _
            show p.id.getD (freshId n) = _
            rw [hpid, if_neg hT]
            rfl
          rw [hid] at heq
          have h2 := hDf m2 hm2
          rw [heq, freshId_startsSim] at h2
          exact absurd h2 (by simp))
      pm S D hD hInj h1
    exact ⟨runK_created_const couponOps pm (initState _ [] {}) hnc, hpr⟩

/-- Witness for C1 at a concrete input: one source product, empty
destination.  The first run creates it; the second run creates nothing
and re-matches it by metadata prod_id. -/
theorem claim_c1_amended_witness :
    (kindRunOut .products [] [srcWidget]
      ((kindRunOut .products [] [srcWidget] []).1)).2.created = 0 ∧
    ∀ s ∈ [srcWidget], kindTag .products [] [] s = .create →
      (((kindRunOut .products [] [srcWidget] []).1).find?
        (strat1 s)).isSome = true :=
  claim_c1_amended .products [] [srcWidget] []
    (by intro e he; exact absurd he (by simp))
    (by simp)
    (by rfl)

end StripeCopy
